import Mathlib

/-!
# Medireserva: availability engine and appointment store

A shallow embedding of the slot generation code of `src/server/server.js`
(`generateTimeSlots`, `timeToMinutes`, `minutesToTime`, `formatTimeDisplay`,
`isValidTime`), of its two routes that change the table `appointments`
(`POST /api/appointments` and `PATCH /api/appointments/:id/status`) and of the two
routes that read it (`GET /api/doctors/:id/availability` and
`GET /api/patient/appointments`), together with the JavaScript built-ins these call,
followed by the properties of the specification that concern them.

Conventions of the embedding.

* JavaScript numbers are integers (`Int`): the values that occur here are SQLite
  `INTEGER`s and minutes since midnight, on which the arithmetic of the code is exact.
* A `while` loop is a function with a fuel argument that counts the evaluations of
  the loop condition; running out of fuel is the outcome `Outcome.outOfFuel`.
* `try { ... } catch (error) { ...; throw error }` rethrows and is the identity on
  outcomes; `console.log` has no effect on the result and is left out.
* Strings are Lean strings; the texts the code builds and tests are ASCII, on which
  the length, the equality and the order of JavaScript strings are those of the
  character lists.
-/

namespace Medireserva

/-! ## JavaScript values and built-ins -/

/-- The values a field of a database row or of a JSON body takes: `undefined`
(absent property), `null`, an integer number, or a string. -/
inductive JsVal where
  | undefined
  | null
  | num (n : Int)
  | str (s : String)
  deriving DecidableEq, Repr

/-- The outcome of running a function of the program. -/
inductive Outcome (α : Type) where
  | returned (a : α)
  | thrown (message : String)
  | outOfFuel
  deriving DecidableEq, Repr

/-- The image of an outcome under a function on the returned value. -/
def Outcome.map {α β : Type} (f : α → β) : Outcome α → Outcome β
  | .returned a => .returned (f a)
  | .thrown message => .thrown message
  | .outOfFuel => .outOfFuel

/-- `Number.prototype.toString()` on an integer: decimal digits, with a leading
minus sign for a negative number. -/
def numberToString : Int → String
  | Int.ofNat n => Nat.repr n
  | Int.negSucc n => "-" ++ Nat.repr (n + 1)

/-- The abstract operation `ToString` of JavaScript. -/
def toStr : JsVal → String
  | .undefined => "undefined"
  | .null => "null"
  | .num n => numberToString n
  | .str s => s

/-- Truthiness (`ToBoolean`): `undefined`, `null`, `0` and the empty string are falsy. -/
def truthy : JsVal → Bool
  | .undefined => false
  | .null => false
  | .num n => n != 0
  | .str s => s != ""

/-- The expression `a || b` on values. -/
def jsOr (a b : JsVal) : JsVal := if truthy a then a else b

/-- The expression `n || fallback` on a number, `none` being `NaN`: `NaN` and `0` are
falsy. -/
def numOr (n : Option Int) (fallback : Int) : Int :=
  match n with
  | some k => if k = 0 then fallback else k
  | none => fallback

/-- The white space that `parseInt` skips (`WhiteSpace` and `LineTerminator`). -/
def isStrWhiteSpace (c : Char) : Bool :=
  let n := c.toNat
  n = 0x09 || n = 0x0A || n = 0x0B || n = 0x0C || n = 0x0D || n = 0x20 || n = 0xA0 ||
  n = 0x1680 || (0x2000 ≤ n && n ≤ 0x200A) || n = 0x2028 || n = 0x2029 ||
  n = 0x202F || n = 0x205F || n = 0x3000 || n = 0xFEFF

/-- The value of a character as a digit of the given radix (10 or 16), if it is one. -/
def digitValue (radix : Nat) (c : Char) : Option Nat :=
  let n := c.toNat
  if 48 ≤ n ∧ n ≤ 57 then some (n - 48)
  else if radix = 16 ∧ 97 ≤ n ∧ n ≤ 102 then some (n - 87)
  else if radix = 16 ∧ 65 ≤ n ∧ n ≤ 70 then some (n - 55)
  else none

/-- The number written by a list of digits, most significant first, after `acc`. -/
def digitsValue (radix : Nat) (acc : Nat) : List Char → Nat
  | [] => acc
  | c :: cs => digitsValue radix (acc * radix + (digitValue radix c).getD 0) cs

/-- The sign step of `parseInt`: whether the text starts with a minus sign, and the
text after a leading sign. -/
def stripSign : List Char → Bool × List Char
  | '-' :: r => (true, r)
  | '+' :: r => (false, r)
  | s => (false, s)

/-- The radix step of `parseInt` without a radix argument: a prefix `0x` or `0X`
is removed and selects radix 16, otherwise the radix is 10. -/
def selectRadix : List Char → Nat × List Char
  | '0' :: 'x' :: r => (16, r)
  | '0' :: 'X' :: r => (16, r)
  | s => (10, s)

/-- The built-in `parseInt` without a radix argument, on the characters of the string
of its argument; `none` is `NaN`. Leading white space and a sign are skipped, the radix
is selected, and the longest run of digits is read. -/
def parseIntChars (input : List Char) : Option Int :=
  let signed := stripSign (input.dropWhile isStrWhiteSpace)
  let chosen := selectRadix signed.2
  let z := chosen.2.takeWhile (fun c => (digitValue chosen.1 c).isSome)
  if z.isEmpty then none
  else if signed.1 then some (-(digitsValue chosen.1 0 z : Int))
  else some (digitsValue chosen.1 0 z : Int)

/-- The built-in `parseInt(v)`: the argument is first converted to a string. -/
def parseInt (v : JsVal) : Option Int := parseIntChars (toStr v).toList

/-- The built-in `String.prototype.split(':')`, on the characters of the string. -/
def splitColon : List Char → List (List Char)
  | [] => [[]]
  | c :: cs =>
    if c = ':' then [] :: splitColon cs
    else match splitColon cs with
      | p :: ps => (c :: p) :: ps
      | [] => [[c]]

/-- The built-in `Number(s)` on a string, `none` being `NaN`, for the strings that
reach it in this program: the empty string (0) and an optionally signed run of decimal
digits. Every call of `Number` in the source is on a piece of a string accepted by
`isValidTime` or produced by `minutesToTime`, which have this form; the other numeric
literal forms of JavaScript (fraction, exponent, radix prefix, `Infinity`, surrounding
white space) are not modelled and are read as `NaN`. -/
def jsNumber (s : List Char) : Option Int :=
  let unsigned (ds : List Char) : Option Nat :=
    if ds.isEmpty || !ds.all (fun c => (digitValue 10 c).isSome) then none
    else some (digitsValue 10 0 ds)
  match s with
  | [] => some 0
  | '-' :: ds => (unsigned ds).map (fun n => -(n : Int))
  | '+' :: ds => (unsigned ds).map (fun n => (n : Int))
  | ds => (unsigned ds).map (fun n => (n : Int))

/-- The built-in `String.prototype.padStart(2, '0')`. -/
def padStart2 (s : String) : String :=
  String.mk (List.replicate (2 - s.length) '0') ++ s

/-- The expression `x.toString()` on the result of `Number`: `NaN` prints as "NaN". -/
def optNumberToString : Option Int → String
  | some n => numberToString n
  | none => "NaN"

/-! ## The source functions -/

/-- A row of the table `doctors`, restricted to the columns `generateTimeSlots` reads. -/
structure Doctor where
  working_hours_start : JsVal
  working_hours_end : JsVal
  consultation_duration : JsVal
  deriving DecidableEq, Repr

/-- An element of the list returned by `generateTimeSlots`. -/
structure Slot where
  time : String
  display : String
  deriving DecidableEq, Repr

/-- The character class `[lo-hi]` of a regular expression. -/
def charIn (lo hi c : Char) : Bool := lo ≤ c && c ≤ hi

/-- The regular expression `/^([0-1]?[0-9]|2[0-3]):[0-5][0-9]$/` as a matcher on the
characters of a string: a one-character hour `[0-9]`, or a two-character hour
`[0-1][0-9]` or `2[0-3]`, then a colon and the minute `[0-5][0-9]`, and nothing else. -/
def matchesTimeRegex : List Char → Bool
  | [h, ':', m1, m2] => charIn '0' '9' h && charIn '0' '5' m1 && charIn '0' '9' m2
  | [h1, h2, ':', m1, m2] =>
    ((charIn '0' '1' h1 && charIn '0' '9' h2) || (h1 == '2' && charIn '0' '3' h2)) &&
      charIn '0' '5' m1 && charIn '0' '9' m2
  | _ => false

/-- The source function `isValidTime`: `timeRegex.test(time)`, which tests the string
of its argument. -/
def isValidTime (time : JsVal) : Bool := matchesTimeRegex (toStr time).toList

/-- The source function `timeToMinutes`: both pieces must be numbers, otherwise the
`catch` branch returns 540. A missing second piece is `undefined`, which `isNaN`
rejects as well. -/
def timeToMinutes (time : String) : Int :=
  match (splitColon time.toList).map jsNumber with
  | some hours :: some minutes :: _ => hours * 60 + minutes
  | _ => 540

/-- The source function `minutesToTime`. `Math.floor(minutes / 60)` is the floor
division and `%` the remainder with the sign of the dividend. -/
def minutesToTime (minutes : Int) : String :=
  let hours := Int.fdiv minutes 60
  let mins := Int.tmod minutes 60
  padStart2 (numberToString hours) ++ ":" ++ padStart2 (numberToString mins)

/-- The source function `formatTimeDisplay`. With no second piece `minutes` is
`undefined`, `minutes.toString()` throws and the `catch` branch returns the argument.
A comparison with `NaN` is false and `NaN % 12` is `NaN`. -/
def formatTimeDisplay (time : String) : String :=
  match (splitColon time.toList).map jsNumber with
  | hours :: minutes :: _ =>
    let period := match hours with
      | some h => if h ≥ 12 then "PM" else "AM"
      | none => "AM"
    let displayHours := numOr (hours.map (fun h => Int.tmod h 12)) 12
    numberToString displayHours ++ ":" ++ padStart2 (optNumberToString minutes) ++ " " ++ period
  | _ => time

/-- The `while` loop of `generateTimeSlots`, on the mutable variables `currentTime`
and `slots`. The fuel bounds the number of evaluations of the loop condition. -/
def slotLoop (bookedSlots : List JsVal) (duration endMinutes : Int) :
    Nat → Int → List Slot → Outcome (List Slot)
  | 0, _, _ => .outOfFuel
  | fuel + 1, currentTime, slots =>
    if currentTime + duration ≤ endMinutes then
      let timeString := minutesToTime currentTime
      let slots :=
        if !bookedSlots.contains (.str timeString) then
          slots ++ [{ time := timeString, display := formatTimeDisplay timeString }]
        else slots
      slotLoop bookedSlots duration endMinutes fuel (currentTime + duration) slots
    else .returned slots

/-- The source function `generateTimeSlots`. -/
def generateTimeSlots (fuel : Nat) (doctor : Doctor) (bookedSlots : List JsVal) :
    Outcome (List Slot) :=
  let start := jsOr doctor.working_hours_start (.str "09:00")
  let «end» := jsOr doctor.working_hours_end (.str "18:00")
  let duration := numOr (parseInt doctor.consultation_duration) 30
  if !isValidTime start || !isValidTime «end» then
    .thrown "Formato de hora inválido"
  else
    let currentTime := timeToMinutes (toStr start)
    let endMinutes := timeToMinutes (toStr «end»)
    if currentTime ≥ endMinutes then .returned []
    else slotLoop bookedSlots duration endMinutes fuel currentTime []

/-! ## The appointment store

The table `appointments` is the list of its rows in insertion order. A query is run on
that list; the storage itself does not fail (the `err` branches of the callbacks, which
answer 500, are not modelled). A bound value is stored and compared as it is: the type
affinity of SQLite, which would store the text "7" as the number 7 in `doctor_id`, is not
modelled. `CURRENT_TIMESTAMP` is the argument `now` of an operation. -/

/-- A row of the table `appointments`. The column `status` only ever receives the
default or a text checked by the status route, and is a string. -/
structure Appointment where
  id : Nat
  doctor_id : JsVal
  patient_name : JsVal
  patient_email : JsVal
  patient_phone : JsVal
  appointment_date : JsVal
  appointment_time : JsVal
  duration : JsVal
  status : String
  reason : JsVal
  notes : JsVal
  created_at : String
  updated_at : String
  deriving DecidableEq, Repr

/-- The fields the route `POST /api/appointments` reads from `req.body`; a field that
the body lacks is `undefined`. -/
structure BookingRequest where
  doctor_id : JsVal
  patient_name : JsVal
  patient_email : JsVal
  patient_phone : JsVal
  appointment_date : JsVal
  appointment_time : JsVal
  reason : JsVal
  notes : JsVal
  deriving DecidableEq, Repr

/-- The answer of a route: the HTTP status code and the `error` text of the body, which
a successful answer does not have. -/
structure Response where
  code : Nat
  error : Option String
  deriving DecidableEq, Repr

/-- The value SQLite receives for a parameter: `undefined` is left unbound, which is
`NULL`. -/
def sqlBind : JsVal → JsVal
  | .undefined => .null
  | v => v

/-- The comparison `column = ?` of SQL on a stored value and a bound one: it does not
hold when either is `NULL`. -/
def sqlEq (stored bound : JsVal) : Bool := stored != .null && bound != .null && stored == bound

/-- The condition `status IN ('confirmed', 'pending')`. -/
def isActiveStatus (status : String) : Bool := status == "confirmed" || status == "pending"

/-- The `WHERE` clause of `checkQuery` in `POST /api/appointments`:
`doctor_id = ? AND appointment_date = ? AND appointment_time = ?
AND status IN ('confirmed', 'pending')`. -/
def occupies (doctor_id appointment_date appointment_time : JsVal) (a : Appointment) : Bool :=
  sqlEq a.doctor_id (sqlBind doctor_id) && sqlEq a.appointment_date (sqlBind appointment_date) &&
    sqlEq a.appointment_time (sqlBind appointment_time) && isActiveStatus a.status

/-- The id an `INTEGER PRIMARY KEY AUTOINCREMENT` column gives to a new row: one more
than the largest id of the table, no row ever being deleted. -/
def nextId (store : List Appointment) : Nat := (store.map Appointment.id).foldr max 0 + 1

/-- The route `POST /api/appointments` (`attemptBook` in the specification): the answer
and the table afterwards. The presence check comes first, then the availability check
(`db.get` gives the first matching row, if any), then the `INSERT`, in which the columns
`duration`, `status`, `created_at` and `updated_at` take their defaults. -/
def attemptBook (now : String) (store : List Appointment) (req : BookingRequest) :
    Response × List Appointment :=
  if !truthy req.doctor_id || !truthy req.patient_name || !truthy req.patient_email ||
      !truthy req.patient_phone || !truthy req.appointment_date ||
      !truthy req.appointment_time then
    (⟨400, some "Todos los campos obligatorios deben ser completados"⟩, store)
  else
    match store.find? (occupies req.doctor_id req.appointment_date req.appointment_time) with
    | some _ =>
      (⟨409, some
        "Lo sentimos, ese horario ya está reservado. Por favor elige otro horario."⟩, store)
    | none =>
      (⟨201, none⟩, store ++ [{
        id := nextId store
        doctor_id := sqlBind req.doctor_id
        patient_name := sqlBind req.patient_name
        patient_email := sqlBind req.patient_email
        patient_phone := sqlBind req.patient_phone
        appointment_date := sqlBind req.appointment_date
        appointment_time := sqlBind req.appointment_time
        duration := .num 30
        status := "confirmed"
        reason := sqlBind req.reason
        notes := sqlBind req.notes
        created_at := now
        updated_at := now }])

/-- The array `validStatuses` of the status route. -/
def validStatuses : List String := ["pending", "confirmed", "cancelled", "completed", "no_show"]

/-- The route `PATCH /api/appointments/:id/status` (`setStatus` in the specification):
the answer and the table afterwards. `appointmentId` is the row id that the path
parameter denotes; a parameter that denotes none behaves as an id that no row has. The
`UPDATE` writes the status and the time of the change into every row with that id, and
`this.changes` is the number of those rows. -/
def setStatus (now : String) (store : List Appointment) (appointmentId : Nat)
    (status : JsVal) : Response × List Appointment :=
  if !truthy status then
    (⟨400, some "El estado es requerido"⟩, store)
  else if !(validStatuses.map JsVal.str).contains status then
    (⟨400, some ("Estado no válido. Los estados permitidos son: " ++
      "pending, confirmed, cancelled, completed, no_show")⟩, store)
  else
    match store.find? (fun a => a.id == appointmentId) with
    | none => (⟨404, some "Cita no encontrada"⟩, store)
    | some _ =>
      let updated := store.map fun a =>
        if a.id = appointmentId then { a with status := toStr status, updated_at := now }
        else a
      let changes := (store.filter (fun a => a.id == appointmentId)).length
      if changes = 0 then (⟨404, some "No se pudo actualizar la cita"⟩, updated)
      else (⟨200, none⟩, updated)

/-- A state-changing operation on the table `appointments`. -/
inductive Operation where
  | book (now : String) (req : BookingRequest)
  | status (now : String) (appointmentId : Nat) (status : JsVal)
  deriving DecidableEq, Repr

/-- The table after an operation. -/
def applyOperation (store : List Appointment) : Operation → List Appointment
  | .book now req => (attemptBook now store req).2
  | .status now appointmentId status => (setStatus now store appointmentId status).2

/-- The table after a sequence of operations run one after the other. -/
def runOperations (store : List Appointment) (ops : List Operation) : List Appointment :=
  ops.foldl applyOperation store

/-! ## The other tables and the reading routes

A path parameter `:id` is a text that SQLite compares with an `INTEGER` column as the
number it writes: the routes take that number, `doctorId`. The columns a `SELECT` lists
are projections of the rows given here. -/

/-- A row of the table `specialties`, restricted to the columns the routes read. -/
structure Specialty where
  id : Nat
  name : JsVal
  icon : JsVal
  deriving DecidableEq, Repr

/-- A row of the table `doctors`, restricted to the columns the routes read; `hours`
holds `working_hours_start`, `working_hours_end` and `consultation_duration`. -/
structure DoctorRow where
  id : Nat
  name : JsVal
  specialty_id : JsVal
  is_active : JsVal
  hours : Doctor
  deriving DecidableEq, Repr

/-- The three tables of the database. -/
structure Database where
  specialties : List Specialty
  doctors : List DoctorRow
  appointments : List Appointment
  deriving DecidableEq, Repr

/-- A row of `appointments a JOIN doctors d ON a.doctor_id = d.id
JOIN specialties s ON d.specialty_id = s.id`. -/
structure JoinedRow where
  appointment : Appointment
  doctor : DoctorRow
  specialty : Specialty
  deriving DecidableEq, Repr

/-- The rows of the inner join of the three tables. -/
def joinedRows (db : Database) : List JoinedRow :=
  db.appointments.flatMap fun a =>
    (db.doctors.filter fun d => sqlEq a.doctor_id (.num d.id)).flatMap fun d =>
      (db.specialties.filter fun s => sqlEq d.specialty_id (.num s.id)).map fun s =>
        { appointment := a, doctor := d, specialty := s }

/-- The field `data` of the 201 answer of `POST /api/appointments`: `this.lastID` and
the row that `db.get` reads back through the join, `undefined` when there is none. -/
structure BookingData where
  appointment_id : Nat
  appointment : Option JoinedRow
  deriving DecidableEq, Repr

/-- The route `POST /api/appointments` on the database, with the body of its answer:
`attemptBook` on the table `appointments`, then, after an `INSERT`, the `SELECT` of the
new row joined with its doctor and specialty. -/
def postAppointment (now : String) (db : Database) (req : BookingRequest) :
    Response × Option BookingData × Database :=
  let answer := attemptBook now db.appointments req
  let after := { db with appointments := answer.2 }
  if answer.1.code = 201 then
    let lastID := nextId db.appointments
    (answer.1,
      some ⟨lastID, (joinedRows after).find? fun r => r.appointment.id == lastID⟩, after)
  else (answer.1, none, after)

/-- The answer of `GET /api/doctors/:id/availability`. -/
inductive AvailabilityAnswer where
  | failure (response : Response)
  | success (doctor : DoctorRow) (available_slots : List Slot) (booked_slots : List JsVal)
  deriving DecidableEq, Repr

/-- The `WHERE` clause of the appointments query of the availability route:
`doctor_id = ? AND appointment_date = ? AND status IN ('confirmed', 'pending')`. -/
def bookedOn (doctorId : Nat) (date : JsVal) (a : Appointment) : Bool :=
  sqlEq a.doctor_id (.num doctorId) && sqlEq a.appointment_date (sqlBind date) &&
    isActiveStatus a.status

/-- The route `GET /api/doctors/:id/availability`. The date is checked first, then the
doctor is read (`WHERE id = ? AND is_active = 1`), then the booked times, and the slots
are generated; an error thrown by `generateTimeSlots` is answered 500. While the loop of
`generateTimeSlots` runs there is no answer. -/
def availability (fuel : Nat) (db : Database) (doctorId : Nat) (date : JsVal) :
    Outcome AvailabilityAnswer :=
  if !truthy date then
    .returned (.failure ⟨400, some "La fecha es requerida"⟩)
  else
    match db.doctors.find? fun d => d.id == doctorId && sqlEq d.is_active (.num 1) with
    | none => .returned (.failure ⟨404, some "Doctor no encontrado"⟩)
    | some doctor =>
      let bookedSlots :=
        (db.appointments.filter (bookedOn doctorId date)).map Appointment.appointment_time
      match generateTimeSlots fuel doctor.hours bookedSlots with
      | .returned availableSlots => .returned (.success doctor availableSlots bookedSlots)
      | .thrown _ =>
        .returned (.failure ⟨500, some "Error generando horarios disponibles"⟩)
      | .outOfFuel => .outOfFuel

/-- The lexicographic order on texts by which SQLite compares them. -/
def textLt : List Char → List Char → Bool
  | _, [] => false
  | [], _ :: _ => true
  | a :: as, b :: bs => a < b || (a == b && textLt as bs)

/-- The order of SQLite on stored values: `NULL` comes first, then the numbers, then the
texts. -/
def sqlLt : JsVal → JsVal → Bool
  | .num a, .num b => a < b
  | .num _, .str _ => true
  | .str a, .str b => textLt a.toList b.toList
  | .str _, _ => false
  | .num _, _ => false
  | _, .num _ => true
  | _, .str _ => true
  | _, _ => false

/-- The clause `ORDER BY a.appointment_date DESC, a.appointment_time DESC`: whether the
row `x` may come before the row `y`. -/
def latestFirst (x y : JoinedRow) : Bool :=
  sqlLt y.appointment.appointment_date x.appointment.appointment_date ||
    (!sqlLt x.appointment.appointment_date y.appointment.appointment_date &&
      !sqlLt x.appointment.appointment_time y.appointment.appointment_time)

/-- The answer of `GET /api/patient/appointments`. -/
inductive SearchAnswer where
  | failure (response : Response)
  | success (rows : List JoinedRow)
  deriving DecidableEq, Repr

/-- The `WHERE` clause of the patient search: both parameters with `AND` when both are
given, otherwise `a.patient_email = ? OR a.patient_phone = ?` with an absent parameter
replaced by the empty text. -/
def patientMatches (email phone : JsVal) (a : Appointment) : Bool :=
  if truthy email && truthy phone then
    sqlEq a.patient_email (sqlBind email) && sqlEq a.patient_phone (sqlBind phone)
  else
    sqlEq a.patient_email (sqlBind (jsOr email (.str ""))) ||
      sqlEq a.patient_phone (sqlBind (jsOr phone (.str "")))

/-- The route `GET /api/patient/appointments`. Rows that tie in the `ORDER BY` keep the
order of the join. -/
def patientAppointments (db : Database) (email phone : JsVal) : SearchAnswer :=
  if !truthy email && !truthy phone then
    .failure ⟨400, some "Se requiere email o teléfono para buscar citas"⟩
  else
    .success
      (((joinedRows db).filter fun r => patientMatches email phone r.appointment).insertionSort
        fun x y => latestFirst x y = true)

/-- The `try` block of `timeToMinutes`: `none` when it throws, which is when a piece is
not a number or the second piece is absent. -/
def timeToMinutesTry (time : String) : Option Int :=
  match (splitColon time.toList).map jsNumber with
  | some hours :: some minutes :: _ => some (hours * 60 + minutes)
  | _ => none

/-! ## Vocabulary of the specification -/

/-- A decimal digit character. -/
abbrev isDecimalDigit (c : Char) : Prop := 48 ≤ c.toNat ∧ c.toNat ≤ 57

/-- The two decimal digits of a number below 100, tens first. -/
def twoDigits (n : Nat) : List Char := [Nat.digitChar (n / 10), Nat.digitChar (n % 10)]

/-- The zero-padded 24-hour text `HH:MM` of hour `h` and minute `m`. -/
def clock (h m : Nat) : String := String.mk (twoDigits h ++ ':' :: twoDigits m)

/-- The text `H:MM` of an hour `h` written with a single digit and minute `m`. -/
def shortClock (h m : Nat) : String := String.mk (Nat.digitChar h :: ':' :: twoDigits m)

/-- The text `s` writes the time of day that is `t` minutes after midnight: an hour
0 to 23 on two digits, or on one digit when below 10, a colon, and a minute 0 to 59 on
two digits. -/
def IsTimeOfDay (s : String) (t : Nat) : Prop :=
  ∃ h m, h < 24 ∧ m < 60 ∧ t = h * 60 + m ∧ (s = clock h m ∨ (h < 10 ∧ s = shortClock h m))

/-- The slot the loop of `generateTimeSlots` builds at `currentTime`. -/
def slotAt (currentTime : Int) : Slot :=
  { time := minutesToTime currentTime
    display := formatTimeDisplay (minutesToTime currentTime) }

/-- Whether the time of a slot is absent from the booked list (`!bookedSlots.includes`). -/
def isOpen (bookedSlots : List JsVal) (s : Slot) : Bool := !bookedSlots.contains (.str s.time)

/-- The times `cur`, `cur + d`, ..., `cur + (n - 1) * d`. -/
def slotTimes (cur d : Int) (n : Nat) : List Int :=
  (List.range n).map (fun (k : Nat) => cur + (k : Int) * d)

/-- The order `<` of JavaScript on strings: the lexicographic order of the character
lists, a proper initial part being smaller. -/
def strLt (s t : String) : Prop := List.lt s.toList t.toList

/-- The well-formed time of the specification: a string made of a two-digit hour 00 to
23, a colon and a two-digit minute 00 to 59. -/
def IsHHMM (v : JsVal) : Prop := ∃ h m, h < 24 ∧ m < 60 ∧ v = .str (clock h m)

/-- A string that writes a time of day with the hour on one or two digits. -/
def IsTimeText (v : JsVal) : Prop := ∃ s t, v = .str s ∧ IsTimeOfDay s t

/-- A missing field: `undefined`, `null` or the empty string. -/
def IsMissing (v : JsVal) : Prop := v = .undefined ∨ v = .null ∨ v = .str ""

/-- A booking request that passes the presence check: the six required fields are
truthy. -/
def HasRequiredFields (req : BookingRequest) : Prop :=
  truthy req.doctor_id = true ∧ truthy req.patient_name = true ∧
    truthy req.patient_email = true ∧ truthy req.patient_phone = true ∧
    truthy req.appointment_date = true ∧ truthy req.appointment_time = true

/-- An active appointment of the table for the doctor, date and time of the request. -/
def HasActiveAppointment (store : List Appointment) (doctor_id date time : JsVal) : Prop :=
  ∃ a ∈ store, a.doctor_id = doctor_id ∧ a.appointment_date = date ∧
    a.appointment_time = time ∧ (a.status = "confirmed" ∨ a.status = "pending")

/-- Two appointments for the same doctor, date and time. -/
def SameSlot (a b : Appointment) : Prop :=
  a.doctor_id = b.doctor_id ∧ a.appointment_date = b.appointment_date ∧
    a.appointment_time = b.appointment_time

/-- No two active (confirmed or pending) appointments of the table share the doctor, the
date and the time. -/
def NoDoubleBooking (store : List Appointment) : Prop :=
  store.Pairwise fun a b =>
    ¬ (isActiveStatus a.status = true ∧ isActiveStatus b.status = true ∧ SameSlot a b)

/-- The ids of the rows are pairwise different (`PRIMARY KEY`). -/
def UniqueIds (store : List Appointment) : Prop := (store.map Appointment.id).Nodup

/-- The row the `INSERT` of `POST /api/appointments` adds to the table. -/
def insertedRow (now : String) (store : List Appointment) (req : BookingRequest) :
    Appointment :=
  { id := nextId store
    doctor_id := sqlBind req.doctor_id
    patient_name := sqlBind req.patient_name
    patient_email := sqlBind req.patient_email
    patient_phone := sqlBind req.patient_phone
    appointment_date := sqlBind req.appointment_date
    appointment_time := sqlBind req.appointment_time
    duration := .num 30
    status := "confirmed"
    reason := sqlBind req.reason
    notes := sqlBind req.notes
    created_at := now
    updated_at := now }

/-- The change the `UPDATE` of the status route makes to a row. -/
def withStatus (now : String) (appointmentId : Nat) (s : String) (a : Appointment) :
    Appointment :=
  if a.id = appointmentId then { a with status := s, updated_at := now } else a

/-- A complete booking request: doctor 1 on 2024-06-01 at 09:00, without reason or
notes. -/
def sampleRequest : BookingRequest :=
  { doctor_id := .num 1
    patient_name := .str "Ana"
    patient_email := .str "ana@example.org"
    patient_phone := .str "555-0100"
    appointment_date := .str "2024-06-01"
    appointment_time := .str "09:00"
    reason := .undefined
    notes := .undefined }

/-- An appointment of the doctor on the date whose status is confirmed or pending. -/
abbrev IsBookedOn (doctorId : Nat) (date : JsVal) (a : Appointment) : Prop :=
  a.doctor_id = .num doctorId ∧ a.appointment_date = date ∧
    (a.status = "confirmed" ∨ a.status = "pending")

/-- The row `doctor` is the row of the table `doctors` with the id `doctorId` (a primary
key) and it is active. -/
def IsActiveDoctor (db : Database) (doctorId : Nat) (doctor : DoctorRow) : Prop :=
  doctor ∈ db.doctors ∧ doctor.id = doctorId ∧ doctor.is_active = .num 1 ∧
    ∀ d ∈ db.doctors, d.id = doctorId → d = doctor

/-- The specialty 2 of the sample data. -/
def sampleSpecialty : Specialty := ⟨2, .str "Cardiología", .str "fa-heartbeat"⟩

/-- An active doctor 1 of specialty 2 who works from 09:00 to 10:00 in slots of 30
minutes. -/
def sampleDoctor : DoctorRow :=
  ⟨1, .str "Dra. Ruiz", .num 2, .num 1, ⟨.str "09:00", .str "10:00", .num 30⟩⟩

/-- A database with one specialty, one doctor and no appointment. -/
def sampleDatabase : Database := ⟨[sampleSpecialty], [sampleDoctor], []⟩

/-- The sample doctor with no specialty: the column `specialty_id` is `NULL`. -/
def doctorWithoutSpecialty : DoctorRow := { sampleDoctor with specialty_id := .null }

/-- A database whose only doctor has no specialty, with no appointment. -/
def databaseWithoutSpecialty : Database := ⟨[sampleSpecialty], [doctorWithoutSpecialty], []⟩

/-! ## Decimal numerals -/

theorem digitChar_toNat (k : Nat) (h : k < 10) : (Nat.digitChar k).toNat = 48 + k := by
  interval_cases k <;> rfl

theorem digitValue_digitChar (k : Nat) (h : k < 10) : digitValue 10 (Nat.digitChar k) = some k := by
  interval_cases k <;> rfl

theorem digitsValue_append (r acc : Nat) (l1 l2 : List Char) :
    digitsValue r acc (l1 ++ l2) = digitsValue r (digitsValue r acc l1) l2 := by
  induction l1 generalizing acc with
  | nil => rfl
  | cons c cs ih => simp [digitsValue, ih]

theorem toDigitsCore_append (fuel n : Nat) (ds : List Char) :
    Nat.toDigitsCore 10 fuel n ds = Nat.toDigitsCore 10 fuel n [] ++ ds := by
  induction fuel generalizing n ds with
  | zero => simp [Nat.toDigitsCore]
  | succ f ih =>
    simp only [Nat.toDigitsCore]
    split
    · simp
    · rw [ih, ih (n / 10) [_]]; simp

theorem toDigitsCore_spec (fuel n : Nat) (h : n < fuel) :
    digitsValue 10 0 (Nat.toDigitsCore 10 fuel n []) = n ∧
    Nat.toDigitsCore 10 fuel n [] ≠ [] ∧
    ∀ c ∈ Nat.toDigitsCore 10 fuel n [], isDecimalDigit c := by
  induction fuel generalizing n with
  | zero => omega
  | succ f ih =>
    have hd : n % 10 < 10 := Nat.mod_lt _ (by decide)
    simp only [Nat.toDigitsCore]
    split
    · rename_i h0
      refine ⟨?_, by simp, ?_⟩
      · simp [digitsValue, digitValue_digitChar _ hd]; omega
      · intro c hc
        simp at hc; subst hc
        simp [isDecimalDigit, digitChar_toNat _ hd]; omega
    · rename_i h0
      have hlt : n / 10 < f := by omega
      obtain ⟨h1, h2, h3⟩ := ih (n / 10) hlt
      rw [toDigitsCore_append]
      refine ⟨?_, by simp, ?_⟩
      · rw [digitsValue_append, h1]
        simp [digitsValue, digitValue_digitChar _ hd]; omega
      · intro c hc
        simp at hc
        rcases hc with hc | hc
        · exact h3 c hc
        · subst hc
          simp [isDecimalDigit, digitChar_toNat _ hd]; omega

theorem toDigits_spec (n : Nat) :
    digitsValue 10 0 (Nat.toDigits 10 n) = n ∧ Nat.toDigits 10 n ≠ [] ∧
    ∀ c ∈ Nat.toDigits 10 n, isDecimalDigit c :=
  toDigitsCore_spec (n + 1) n (Nat.lt_succ_self n)

theorem isStrWhiteSpace_digit (c : Char) (h : isDecimalDigit c) : isStrWhiteSpace c = false := by
  unfold isDecimalDigit at h
  simp only [isStrWhiteSpace, Bool.or_eq_false_iff, Bool.and_eq_false_iff, decide_eq_false_iff_not]
  omega

theorem digitValue_isSome_digit (c : Char) (h : isDecimalDigit c) :
    (digitValue 10 c).isSome = true := by
  unfold isDecimalDigit at h
  simp [digitValue, h]

theorem takeWhile_digits (l : List Char) (h : ∀ c ∈ l, isDecimalDigit c) :
    l.takeWhile (fun c => (digitValue 10 c).isSome) = l := by
  rw [List.takeWhile_eq_self_iff]
  intro c hc
  exact digitValue_isSome_digit c (h c hc)

theorem stripSign_digit (c : Char) (cs : List Char) (hc : isDecimalDigit c) :
    stripSign (c :: cs) = (false, c :: cs) := by
  have hm : c ≠ '-' := by rintro rfl; exact absurd hc (by decide)
  have hp : c ≠ '+' := by rintro rfl; exact absurd hc (by decide)
  unfold stripSign
  split
  · rename_i h; injection h with h1; exact absurd h1 hm
  · rename_i h; injection h with h1; exact absurd h1 hp
  · rfl

theorem selectRadix_digits (l : List Char) (hall : ∀ c ∈ l, isDecimalDigit c) :
    selectRadix l = (10, l) := by
  unfold selectRadix
  split
  · exact absurd (hall 'x' (by simp)) (by decide)
  · exact absurd (hall 'X' (by simp)) (by decide)
  · rfl

theorem parseIntChars_digits (l : List Char) (hne : l ≠ [])
    (hall : ∀ c ∈ l, isDecimalDigit c) :
    parseIntChars l = some (digitsValue 10 0 l : Int) := by
  obtain ⟨c, cs, rfl⟩ := List.exists_cons_of_ne_nil hne
  have hc : isDecimalDigit c := hall c (by simp)
  have hdrop : (c :: cs).dropWhile isStrWhiteSpace = c :: cs := by
    simp [List.dropWhile_cons, isStrWhiteSpace_digit c hc]
  unfold parseIntChars
  rw [hdrop, stripSign_digit c cs hc]
  simp only [selectRadix_digits _ hall, takeWhile_digits _ hall]
  simp

theorem parseIntChars_neg_digits (l : List Char) (hne : l ≠ [])
    (hall : ∀ c ∈ l, isDecimalDigit c) :
    parseIntChars ('-' :: l) = some (-(digitsValue 10 0 l : Int)) := by
  have hdrop : ('-' :: l).dropWhile isStrWhiteSpace = '-' :: l := by
    have hws : isStrWhiteSpace '-' = false := by decide
    simp [List.dropWhile_cons, hws]
  have hsign : stripSign ('-' :: l) = (true, l) := rfl
  unfold parseIntChars
  rw [hdrop, hsign]
  simp only [selectRadix_digits _ hall, takeWhile_digits _ hall]
  simp [hne]

theorem parseInt_num (n : Int) : parseInt (.num n) = some n := by
  cases n with
  | ofNat k =>
    obtain ⟨h1, h2, h3⟩ := toDigits_spec k
    show parseIntChars (Nat.toDigits 10 k) = _
    rw [parseIntChars_digits _ h2 h3, h1]; rfl
  | negSucc k =>
    obtain ⟨h1, h2, h3⟩ := toDigits_spec (k + 1)
    show parseIntChars ('-' :: Nat.toDigits 10 (k + 1)) = _
    rw [parseIntChars_neg_digits _ h2 h3, h1]; rfl

theorem jsOr_missing (v w : JsVal) (h : IsMissing v) : jsOr v w = w := by
  rcases h with rfl | rfl | rfl <;> rfl

theorem parseInt_missing (v : JsVal) (h : IsMissing v) : parseInt v = none := by
  rcases h with rfl | rfl | rfl <;> decide

/-! ## Time texts -/

theorem splitColon_of_not_mem (l : List Char) (h : ':' ∉ l) : splitColon l = [l] := by
  induction l with
  | nil => rfl
  | cons c cs ih =>
    have hc : c ≠ ':' := fun e => h (by simp [e])
    have hcs : ':' ∉ cs := fun e => h (by simp [e])
    simp [splitColon, hc, ih hcs]

theorem splitColon_append (a b : List Char) (h : ':' ∉ a) :
    splitColon (a ++ ':' :: b) = a :: splitColon b := by
  induction a with
  | nil => simp [splitColon]
  | cons c cs ih =>
    have hc : c ≠ ':' := fun e => h (by simp [e])
    have hcs : ':' ∉ cs := fun e => h (by simp [e])
    simp [splitColon, hc, ih hcs]

theorem twoDigits_spec (n : Nat) (h : n < 60) :
    jsNumber (twoDigits n) = some (n : Int) ∧ ':' ∉ twoDigits n ∧
    padStart2 (Nat.repr n) = String.mk (twoDigits n) := by
  interval_cases n <;> exact ⟨rfl, by decide, rfl⟩

theorem oneDigit_spec (n : Nat) (h : n < 10) :
    jsNumber [Nat.digitChar n] = some (n : Int) ∧ ':' ∉ [Nat.digitChar n] := by
  interval_cases n <;> exact ⟨rfl, by decide⟩

theorem splitColon_clock (h m : Nat) (hh : h < 24) (hm : m < 60) :
    (splitColon (clock h m).toList).map jsNumber = [some (h : Int), some (m : Int)] := by
  obtain ⟨h1, h2, -⟩ := twoDigits_spec h (by omega)
  obtain ⟨m1, m2, -⟩ := twoDigits_spec m hm
  have : (clock h m).toList = twoDigits h ++ ':' :: twoDigits m := rfl
  simp only [this, splitColon_append _ _ h2, splitColon_of_not_mem _ m2, List.map, h1, m1]

theorem splitColon_shortClock (h m : Nat) (hh : h < 10) (hm : m < 60) :
    (splitColon (shortClock h m).toList).map jsNumber = [some (h : Int), some (m : Int)] := by
  obtain ⟨h1, h2⟩ := oneDigit_spec h hh
  obtain ⟨m1, m2, -⟩ := twoDigits_spec m hm
  have : (shortClock h m).toList = [Nat.digitChar h] ++ ':' :: twoDigits m := rfl
  simp only [this, splitColon_append _ _ h2, splitColon_of_not_mem _ m2, List.map, h1, m1]

theorem timeToMinutes_of_isTimeOfDay (s : String) (t : Nat) (h : IsTimeOfDay s t) :
    timeToMinutes s = t := by
  obtain ⟨hh, m, h1, h2, rfl, h3 | ⟨h3, h4⟩⟩ := h
  · subst h3
    simp only [timeToMinutes, splitColon_clock hh m h1 h2]
    push_cast; ring
  · subst h4
    simp only [timeToMinutes, splitColon_shortClock hh m h3 h2]
    push_cast; ring

theorem numberToString_natCast (n : Nat) : numberToString (n : Int) = Nat.repr n := rfl

theorem minutesToTime_clock (h m : Nat) (hh : h < 24) (hm : m < 60) :
    minutesToTime ((h * 60 + m : Nat) : Int) = clock h m := by
  have hdiv : Int.fdiv ((h * 60 + m : Nat) : Int) 60 = (h : Int) := by
    rw [Int.fdiv_eq_ediv _ (by decide)]
    omega
  have hmod : Int.tmod ((h * 60 + m : Nat) : Int) 60 = (m : Int) := by
    rw [Int.tmod_eq_emod (by omega) (by decide)]
    omega
  obtain ⟨-, -, h3⟩ := twoDigits_spec h (by omega)
  obtain ⟨-, -, m3⟩ := twoDigits_spec m hm
  simp only [minutesToTime, hdiv, hmod, numberToString_natCast, h3, m3, clock]
  rfl

theorem minutesToTime_of_lt (t : Nat) (ht : t < 1440) :
    minutesToTime (t : Int) = clock (t / 60) (t % 60) := by
  have := minutesToTime_clock (t / 60) (t % 60) (by omega) (by omega)
  rwa [Nat.div_add_mod' t 60] at this

theorem isTimeOfDay_minutesToTime (t : Nat) (ht : t < 1440) :
    IsTimeOfDay (minutesToTime (t : Int)) t :=
  ⟨t / 60, t % 60, by omega, by omega, by omega, Or.inl (minutesToTime_of_lt t ht)⟩

theorem timeToMinutes_minutesToTime (t : Nat) (ht : t < 1440) :
    timeToMinutes (minutesToTime (t : Int)) = t :=
  timeToMinutes_of_isTimeOfDay _ t (isTimeOfDay_minutesToTime t ht)

theorem isTimeOfDay_lt (s : String) (t : Nat) (h : IsTimeOfDay s t) : t < 1440 := by
  obtain ⟨hh, m, h1, h2, rfl, -⟩ := h
  omega

theorem isTimeOfDay_ne_empty (s : String) (t : Nat) (h : IsTimeOfDay s t) : s ≠ "" := by
  obtain ⟨hh, m, -, -, -, h3 | ⟨-, h4⟩⟩ := h
  · subst h3; intro e
    have := congrArg String.length e
    simp [clock, twoDigits, String.length] at this
  · subst h4; intro e
    have := congrArg String.length e
    simp [shortClock, twoDigits, String.length] at this

theorem jsOr_timeOfDay (s : String) (t : Nat) (h : IsTimeOfDay s t) (v : JsVal) :
    jsOr (.str s) v = .str s := by
  simp [jsOr, truthy, isTimeOfDay_ne_empty s t h]

theorem clock_length (h m : Nat) : (clock h m).length = 5 := rfl

theorem formatTimeDisplay_clock (h m : Nat) (hh : h < 24) (hm : m < 60) :
    formatTimeDisplay (clock h m) =
      Nat.repr (if h = 0 ∨ h = 12 then 12 else if h ≤ 11 then h else h - 12) ++ ":" ++
        String.mk (twoDigits m) ++ " " ++ (if h < 12 then "AM" else "PM") := by
  have hm3 : padStart2 (optNumberToString (some (m : Int))) = String.mk (twoDigits m) :=
    (twoDigits_spec m hm).2.2
  simp only [formatTimeDisplay, splitColon_clock h m hh hm, hm3]
  interval_cases h <;> rfl

/-! ## The regular expression of `isValidTime` -/

theorem char_eq_of_toNat (c : Char) (n : Nat) (h : c.toNat = n) : c = Char.ofNat n := by
  subst h
  exact (Char.ofNat_toNat c).symm

theorem charIn_digit (c : Char) (j : Nat) (hj : j < 10)
    (h : charIn '0' (Nat.digitChar j) c = true) : ∃ k, k ≤ j ∧ c = Nat.digitChar k := by
  have hle : ∀ a b : Char, a ≤ b ↔ a.toNat ≤ b.toNat := fun _ _ => Iff.rfl
  simp only [charIn, Bool.and_eq_true, decide_eq_true_eq, hle] at h
  obtain ⟨h1, h2⟩ := h
  have h0 : ('0' : Char).toNat = 48 := rfl
  have hj2 : (Nat.digitChar j).toNat = 48 + j := digitChar_toNat j hj
  rw [h0] at h1
  rw [hj2] at h2
  have hc := char_eq_of_toNat c _ rfl
  generalize c.toNat = n at *
  subst hc
  have hn : n ≤ 57 := by omega
  refine ⟨n - 48, by omega, ?_⟩
  clear h2
  interval_cases n <;> rfl

theorem twoDigits_pair (a b : Nat) (hb : b < 10) :
    [Nat.digitChar a, Nat.digitChar b] = twoDigits (10 * a + b) := by
  have h1 : (10 * a + b) / 10 = a := by omega
  have h2 : (10 * a + b) % 10 = b := by omega
  simp [twoDigits, h1, h2]

theorem isTimeOfDay_of_matches (s : String) (h : matchesTimeRegex s.toList = true) :
    ∃ t, IsTimeOfDay s t := by
  have hs : s = String.mk s.toList := rfl
  unfold matchesTimeRegex at h
  split at h
  · rename_i c m1 m2 hl
    simp only [Bool.and_eq_true] at h
    obtain ⟨⟨hc, hm1⟩, hm2⟩ := h
    obtain ⟨k, hk, rfl⟩ := charIn_digit c 9 (by decide) hc
    obtain ⟨a, ha, rfl⟩ := charIn_digit m1 5 (by decide) hm1
    obtain ⟨b, hb, rfl⟩ := charIn_digit m2 9 (by decide) hm2
    refine ⟨k * 60 + (10 * a + b), k, 10 * a + b, by omega, by omega, rfl, Or.inr ⟨by omega, ?_⟩⟩
    rw [hs, hl, shortClock, ← twoDigits_pair a b (by omega)]
  · rename_i c1 c2 m1 m2 hl
    simp only [Bool.and_eq_true, Bool.or_eq_true, beq_iff_eq] at h
    obtain ⟨⟨hc, hm1⟩, hm2⟩ := h
    obtain ⟨a, ha, rfl⟩ := charIn_digit m1 5 (by decide) hm1
    obtain ⟨b, hb, rfl⟩ := charIn_digit m2 9 (by decide) hm2
    have key : ∃ k1 k2, k2 < 10 ∧ 10 * k1 + k2 < 24 ∧ c1 = Nat.digitChar k1 ∧
        c2 = Nat.digitChar k2 := by
      rcases hc with ⟨hc1, hc2⟩ | ⟨hc1, hc2⟩
      · obtain ⟨k1, hk1, rfl⟩ := charIn_digit c1 1 (by decide) hc1
        obtain ⟨k2, hk2, rfl⟩ := charIn_digit c2 9 (by decide) hc2
        exact ⟨k1, k2, by omega, by omega, rfl, rfl⟩
      · obtain ⟨k2, hk2, rfl⟩ := charIn_digit c2 3 (by decide) hc2
        exact ⟨2, k2, by omega, by omega, hc1, rfl⟩
    obtain ⟨k1, k2, hk2, hk, rfl, rfl⟩ := key
    refine ⟨(10 * k1 + k2) * 60 + (10 * a + b), 10 * k1 + k2, 10 * a + b, hk, by omega, rfl,
      Or.inl ?_⟩
    rw [hs, hl, clock, ← twoDigits_pair a b (by omega), ← twoDigits_pair k1 k2 hk2]
    rfl
  · exact absurd h (by simp)

theorem hour_class (h : Nat) (hh : h < 24) :
    ((charIn '0' '1' (Nat.digitChar (h / 10)) && charIn '0' '9' (Nat.digitChar (h % 10))) ||
      (Nat.digitChar (h / 10) == '2' && charIn '0' '3' (Nat.digitChar (h % 10)))) = true := by
  interval_cases h <;> decide

theorem minute_class (m : Nat) (hm : m < 60) :
    (charIn '0' '5' (Nat.digitChar (m / 10)) && charIn '0' '9' (Nat.digitChar (m % 10))) = true := by
  interval_cases m <;> decide

theorem oneDigit_class (h : Nat) (hh : h < 10) :
    charIn '0' '9' (Nat.digitChar h) = true ∧ Nat.digitChar h ≠ ':' := by
  interval_cases h <;> decide

theorem matches_of_isTimeOfDay (s : String) (t : Nat) (h : IsTimeOfDay s t) :
    matchesTimeRegex s.toList = true := by
  obtain ⟨hh, m, h1, h2, -, h3 | ⟨h3, h4⟩⟩ := h
  · subst h3
    have e : (clock hh m).toList = [Nat.digitChar (hh / 10), Nat.digitChar (hh % 10), ':',
      Nat.digitChar (m / 10), Nat.digitChar (m % 10)] := rfl
    have hc := hour_class hh h1
    have mc := minute_class m h2
    have hne : Nat.digitChar (hh % 10) ≠ ':' := (oneDigit_class (hh % 10) (by omega)).2
    rw [e, matchesTimeRegex, hc, Bool.true_and]
    exact mc
  · subst h4
    have e : (shortClock hh m).toList = [Nat.digitChar hh, ':',
      Nat.digitChar (m / 10), Nat.digitChar (m % 10)] := rfl
    have mc := minute_class m h2
    rw [e, matchesTimeRegex, (oneDigit_class hh h3).1, Bool.true_and]
    exact mc

theorem isValidTime_str_iff (s : String) :
    isValidTime (.str s) = true ↔ ∃ t, IsTimeOfDay s t :=
  ⟨isTimeOfDay_of_matches s, fun ⟨t, h⟩ => matches_of_isTimeOfDay s t h⟩

theorem matches_colon (l : List Char) (h : matchesTimeRegex l = true) : ':' ∈ l := by
  unfold matchesTimeRegex at h
  split at h
  · simp
  · simp
  · exact absurd h (by simp)

theorem isValidTime_num (n : Int) : isValidTime (.num n) = false := by
  rw [Bool.eq_false_iff]
  intro h
  have hc := matches_colon _ h
  have hd : ¬ isDecimalDigit ':' := by decide
  cases n with
  | ofNat k =>
    have : (toStr (.num (Int.ofNat k))).toList = Nat.toDigits 10 k := rfl
    rw [this] at hc
    exact hd ((toDigits_spec k).2.2 _ hc)
  | negSucc k =>
    have : (toStr (.num (Int.negSucc k))).toList = '-' :: Nat.toDigits 10 (k + 1) := rfl
    rw [this] at hc
    rcases List.mem_cons.1 hc with hc | hc
    · exact absurd hc (by decide)
    · exact hd ((toDigits_spec (k + 1)).2.2 _ hc)

theorem isValidTime_iff (v : JsVal) : isValidTime v = true ↔ IsTimeText v := by
  cases v with
  | undefined =>
    refine ⟨fun h => absurd h (by decide), ?_⟩
    rintro ⟨s, t, h, -⟩; cases h
  | null =>
    refine ⟨fun h => absurd h (by decide), ?_⟩
    rintro ⟨s, t, h, -⟩; cases h
  | num n =>
    rw [isValidTime_num]
    refine ⟨fun h => absurd h (by simp), ?_⟩
    rintro ⟨s, t, h, -⟩; cases h
  | str s =>
    rw [isValidTime_str_iff]
    constructor
    · rintro ⟨t, ht⟩; exact ⟨s, t, rfl, ht⟩
    · rintro ⟨s2, t, h, ht⟩
      cases h
      exact ⟨t, ht⟩

/-! ## The order of time texts -/

theorem digitChar_lt (x y : Nat) (hxy : x < y) (hy : y < 10) :
    Nat.digitChar x < Nat.digitChar y := by
  show (Nat.digitChar x).toNat < (Nat.digitChar y).toNat
  rw [digitChar_toNat x (by omega), digitChar_toNat y hy]
  omega

theorem char_lt_irrefl (c : Char) : ¬ c < c := fun h => Nat.lt_irrefl c.toNat h

theorem twoDigits_lt (x y : Nat) (r1 r2 : List Char) (hxy : x < y) (hy : y < 100) :
    List.lt (twoDigits x ++ r1) (twoDigits y ++ r2) := by
  simp only [twoDigits, List.cons_append, List.nil_append]
  by_cases h : x / 10 < y / 10
  · exact List.lt.head _ _ (digitChar_lt _ _ h (by omega))
  · have e : x / 10 = y / 10 := by omega
    rw [e]
    exact List.lt.tail (char_lt_irrefl _) (char_lt_irrefl _)
      (List.lt.head _ _ (digitChar_lt _ _ (by omega) (by omega)))

theorem twoDigits_append_lt (x : Nat) (r1 r2 : List Char) (h : List.lt r1 r2) :
    List.lt (twoDigits x ++ r1) (twoDigits x ++ r2) := by
  simp only [twoDigits, List.cons_append, List.nil_append]
  exact List.lt.tail (char_lt_irrefl _) (char_lt_irrefl _)
    (List.lt.tail (char_lt_irrefl _) (char_lt_irrefl _) h)

theorem clock_lt (h1 m1 h2 m2 : Nat) (hh : h2 < 24) (hm1 : m1 < 60) (hm2 : m2 < 60)
    (hlt : h1 * 60 + m1 < h2 * 60 + m2) : strLt (clock h1 m1) (clock h2 m2) := by
  show List.lt (twoDigits h1 ++ ':' :: twoDigits m1) (twoDigits h2 ++ ':' :: twoDigits m2)
  by_cases h : h1 < h2
  · exact twoDigits_lt h1 h2 _ _ h (by omega)
  · have e : h1 = h2 := by omega
    subst e
    refine twoDigits_append_lt h1 _ _ ?_
    refine List.lt.tail (char_lt_irrefl _) (char_lt_irrefl _) ?_
    have := twoDigits_lt m1 m2 [] [] (by omega) (by omega)
    simpa using this

theorem minutesToTime_lt (t1 t2 : Nat) (h : t1 < t2) (ht : t2 < 1440) :
    strLt (minutesToTime (t1 : Int)) (minutesToTime (t2 : Int)) := by
  rw [minutesToTime_of_lt t1 (by omega), minutesToTime_of_lt t2 ht]
  exact clock_lt _ _ _ _ (by omega) (by omega) (by omega) (by omega)

/-! ## The loop of `generateTimeSlots` -/

theorem slotLoop_step (booked : List JsVal) (d e : Int) (fuel : Nat) (cur : Int)
    (acc : List Slot) (h : cur + d ≤ e) :
    slotLoop booked d e (fuel + 1) cur acc =
      slotLoop booked d e fuel (cur + d) (acc ++ [slotAt cur].filter (isOpen booked)) := by
  rw [slotLoop, if_pos h]
  by_cases hb : JsVal.str (minutesToTime cur) ∈ booked
  · simp [hb, isOpen, slotAt]
  · simp [hb, isOpen, slotAt]

theorem slotLoop_stop (booked : List JsVal) (d e : Int) (fuel : Nat) (cur : Int)
    (acc : List Slot) (h : ¬ cur + d ≤ e) :
    slotLoop booked d e (fuel + 1) cur acc = .returned acc := by
  rw [slotLoop, if_neg h]

theorem slotLoop_acc (booked : List JsVal) (d e : Int) (fuel : Nat) (cur : Int)
    (acc : List Slot) :
    slotLoop booked d e fuel cur acc =
      (slotLoop booked d e fuel cur []).map (fun l => acc ++ l) := by
  induction fuel generalizing cur acc with
  | zero => rfl
  | succ f ih =>
    by_cases h : cur + d ≤ e
    · rw [slotLoop_step _ _ _ _ _ _ h, slotLoop_step _ _ _ _ _ _ h, ih, ih (cur + d) ([] ++ _)]
      cases slotLoop booked d e f (cur + d) [] <;> simp [Outcome.map]
    · rw [slotLoop_stop _ _ _ _ _ _ h, slotLoop_stop _ _ _ _ _ _ h]
      simp [Outcome.map]

theorem slotLoop_ne_thrown (booked : List JsVal) (d e : Int) (msg : String) :
    ∀ (fuel : Nat) (cur : Int) (acc : List Slot),
      slotLoop booked d e fuel cur acc ≠ .thrown msg := by
  intro fuel
  induction fuel with
  | zero => intro cur acc; simp [slotLoop]
  | succ f ih =>
    intro cur acc
    by_cases hc : cur + d ≤ e
    · rw [slotLoop_step _ _ _ _ _ _ hc]; exact ih _ _
    · rw [slotLoop_stop _ _ _ _ _ _ hc]; simp

theorem mem_contains_iff (booked : List JsVal) (v : JsVal) :
    booked.contains v = true ↔ v ∈ booked := by
  simp

theorem slotLoop_invariant (P : Slot → Prop) (booked : List JsVal) (d e : Int)
    (hP : ∀ t : Int, JsVal.str (minutesToTime t) ∉ booked → P (slotAt t)) :
    ∀ (fuel : Nat) (cur : Int) (acc slots : List Slot),
      slotLoop booked d e fuel cur acc = .returned slots →
      (∀ s ∈ acc, P s) → ∀ s ∈ slots, P s := by
  intro fuel
  induction fuel with
  | zero => intro cur acc slots h; exact absurd h (by simp [slotLoop])
  | succ f ih =>
    intro cur acc slots h hacc
    by_cases hc : cur + d ≤ e
    · rw [slotLoop_step _ _ _ _ _ _ hc] at h
      refine ih _ _ _ h ?_
      intro s hs
      rcases List.mem_append.1 hs with hs | hs
      · exact hacc s hs
      · simp only [List.mem_filter, List.mem_singleton, isOpen] at hs
        obtain ⟨rfl, ho⟩ := hs
        exact hP cur (by simpa [slotAt] using ho)
    · rw [slotLoop_stop _ _ _ _ _ _ hc] at h
      injection h with h
      subst h
      exact hacc

theorem slotLoop_filter (booked : List JsVal) (d e : Int) :
    ∀ (fuel : Nat) (cur : Int) (acc : List Slot),
      slotLoop booked d e fuel cur (acc.filter (isOpen booked)) =
        (slotLoop [] d e fuel cur acc).map (List.filter (isOpen booked)) := by
  intro fuel
  induction fuel with
  | zero => intro cur acc; rfl
  | succ f ih =>
    intro cur acc
    by_cases hc : cur + d ≤ e
    · rw [slotLoop_step _ _ _ _ _ _ hc, slotLoop_step _ _ _ _ _ _ hc, ← List.filter_append, ih]
      have : [slotAt cur].filter (isOpen []) = [slotAt cur] := by simp [isOpen]
      rw [this]
    · rw [slotLoop_stop _ _ _ _ _ _ hc, slotLoop_stop _ _ _ _ _ _ hc]
      rfl

theorem slotTimes_succ (cur d : Int) (n : Nat) :
    slotTimes cur d (n + 1) = cur :: slotTimes (cur + d) d n := by
  simp only [slotTimes, List.range_succ_eq_map, List.map_cons, List.map_map]
  refine congrArg₂ _ ?_ (List.map_congr_left ?_)
  · norm_num
  · intro k _
    simp only [Function.comp, Nat.succ_eq_add_one]
    push_cast; ring

theorem slotTimes_eq_natCast (a d n : Nat) :
    slotTimes a d n = (List.range n).map (fun k => ((a + k * d : Nat) : Int)) := by
  simp only [slotTimes]
  refine List.map_congr_left ?_
  intro k _
  push_cast; rfl

theorem mem_slotTimes (cur d : Int) (n : Nat) (t : Int) :
    t ∈ slotTimes cur d n ↔ ∃ k : Nat, k < n ∧ t = cur + k * d := by
  simp only [slotTimes, List.mem_map, List.mem_range]
  constructor
  · rintro ⟨k, hk, rfl⟩; exact ⟨k, hk, rfl⟩
  · rintro ⟨k, hk, rfl⟩; exact ⟨k, hk, rfl⟩

theorem lt_div_iff_window (a b d k : Nat) (hab : a ≤ b) (hd : 0 < d) :
    k < (b - a) / d ↔ a + k * d + d ≤ b := by
  rw [Nat.lt_iff_add_one_le, Nat.le_div_iff_mul_le hd]
  constructor
  · intro h; nlinarith [Nat.sub_add_cancel hab]
  · intro h
    have : (k + 1) * d = k * d + d := by ring
    omega

theorem slotLoop_count (booked : List JsVal) (d e : Int) (hd : 0 < d) (n : Nat) :
    ∀ (fuel : Nat) (cur : Int), n < fuel → cur + n * d ≤ e → e < cur + (n + 1) * d →
      slotLoop booked d e fuel cur [] =
        .returned (((slotTimes cur d n).map slotAt).filter (isOpen booked)) := by
  induction n with
  | zero =>
    intro fuel cur hf _ h2
    obtain ⟨f, rfl⟩ := Nat.exists_eq_succ_of_ne_zero (by omega : fuel ≠ 0)
    rw [slotLoop_stop _ _ _ _ _ _ (by simpa using h2)]
    rfl
  | succ n ih =>
    intro fuel cur hf h1 h2
    obtain ⟨f, rfl⟩ := Nat.exists_eq_succ_of_ne_zero (by omega : fuel ≠ 0)
    have hnd : 0 ≤ (n : Int) * d := by positivity
    push_cast at h1 h2
    have hstep : cur + d ≤ e := by nlinarith
    rw [slotLoop_step _ _ _ _ _ _ hstep, slotLoop_acc,
      ih f (cur + d) (by omega) (by linarith) (by linarith), slotTimes_succ]
    simp only [Outcome.map, List.nil_append, List.map_cons]
    rw [← List.filter_append]
    rfl

theorem length_expected_nil (cur d : Int) (n : Nat) :
    (((slotTimes cur d n).map slotAt).filter (isOpen [])) = (slotTimes cur d n).map slotAt := by
  rw [List.filter_eq_self]
  intro s _
  simp [isOpen]

theorem pairwise_expected (R : Slot → Slot → Prop) (a b d : Nat) (hb : b < 1440) (hd : 0 < d)
    (booked : List JsVal)
    (hR : ∀ t1 t2 : Nat, t1 < t2 → t2 < 1440 → R (slotAt t1) (slotAt t2)) :
    List.Pairwise R (((slotTimes a d ((b - a) / d)).map slotAt).filter (isOpen booked)) := by
  refine List.Pairwise.filter _ ?_
  rw [slotTimes_eq_natCast, List.map_map, List.pairwise_map]
  refine List.Pairwise.imp_of_mem ?_ (List.pairwise_lt_range _)
  intro i j _ hj hij
  have hj2 : j < (b - a) / d := List.mem_range.1 hj
  have hab : a ≤ b := by
    by_contra hne
    rw [Nat.sub_eq_zero_of_le (by omega)] at hj2
    simp at hj2
  have hw := (lt_div_iff_window a b d j hab hd).1 hj2
  have hlt : i * d < j * d := Nat.mul_lt_mul_of_pos_right hij hd
  exact hR _ _ (by omega) (by omega)

/-! ## The function `generateTimeSlots` -/

theorem generateTimeSlots_eq (s e : String) (a b d : Nat) (booked : List JsVal) (fuel : Nat)
    (hs : IsTimeOfDay s a) (he : IsTimeOfDay e b) (hd : 0 < d) (hf : (b - a) / d < fuel) :
    generateTimeSlots fuel ⟨.str s, .str e, .num d⟩ booked =
      .returned (((slotTimes a d ((b - a) / d)).map slotAt).filter (isOpen booked)) := by
  have hvs : isValidTime (.str s) = true := (isValidTime_str_iff s).2 ⟨a, hs⟩
  have hve : isValidTime (.str e) = true := (isValidTime_str_iff e).2 ⟨b, he⟩
  have hd0 : (d : Int) ≠ 0 := by omega
  simp only [generateTimeSlots, jsOr_timeOfDay s a hs, jsOr_timeOfDay e b he, parseInt_num,
    hvs, hve, toStr, timeToMinutes_of_isTimeOfDay s a hs, timeToMinutes_of_isTimeOfDay e b he,
    numOr, if_neg hd0, Bool.not_true, Bool.or_self, Bool.false_eq_true, if_false]
  by_cases hab : b ≤ a
  · have h0 : (b - a) / d = 0 := by
      rw [Nat.sub_eq_zero_of_le hab]; simp
    rw [if_pos (by exact_mod_cast hab), h0]
    rfl
  · rw [if_neg (by push_neg; exact_mod_cast (Nat.lt_of_not_le hab))]
    have hdm := Nat.div_add_mod (b - a) d
    have hml := Nat.mod_lt (b - a) hd
    have hcast : ((b - a : Nat) : Int) = (b : Int) - a := by omega
    have hq : (d : Int) * (((b - a) / d : Nat) : Int) + (((b - a) % d : Nat) : Int) = b - a := by
      rw [← hcast]; exact_mod_cast hdm
    refine slotLoop_count booked d b (by exact_mod_cast hd) _ fuel a hf ?_ ?_
    · nlinarith
    · have : (((b - a) % d : Nat) : Int) < d := by exact_mod_cast hml
      nlinarith

theorem generateTimeSlots_invariant (P : Slot → Prop) (booked : List JsVal)
    (hP : ∀ t : Int, JsVal.str (minutesToTime t) ∉ booked → P (slotAt t))
    (fuel : Nat) (doctor : Doctor) (slots : List Slot)
    (h : generateTimeSlots fuel doctor booked = .returned slots) : ∀ s ∈ slots, P s := by
  unfold generateTimeSlots at h
  simp only at h
  split at h
  · exact absurd h (by simp)
  · split at h
    · injection h with h; subst h; simp
    · exact slotLoop_invariant P booked _ _ hP _ _ _ _ h (by simp)

theorem generateTimeSlots_filter (fuel : Nat) (doctor : Doctor) (booked : List JsVal) :
    generateTimeSlots fuel doctor booked =
      (generateTimeSlots fuel doctor []).map (List.filter (isOpen booked)) := by
  unfold generateTimeSlots
  simp only
  split
  · rfl
  · split
    · rfl
    · exact slotLoop_filter booked _ _ fuel _ []

theorem generateTimeSlots_congr (fuel : Nat) (d1 d2 : Doctor) (booked : List JsVal)
    (hs : jsOr d1.working_hours_start (.str "09:00") = jsOr d2.working_hours_start (.str "09:00"))
    (he : jsOr d1.working_hours_end (.str "18:00") = jsOr d2.working_hours_end (.str "18:00"))
    (hd : numOr (parseInt d1.consultation_duration) 30 =
      numOr (parseInt d2.consultation_duration) 30) :
    generateTimeSlots fuel d1 booked = generateTimeSlots fuel d2 booked := by
  unfold generateTimeSlots
  simp only [hs, he, hd]

theorem generateTimeSlots_not_thrown (fuel : Nat) (doctor : Doctor) (booked : List JsVal)
    (hs : isValidTime (jsOr doctor.working_hours_start (.str "09:00")) = true)
    (he : isValidTime (jsOr doctor.working_hours_end (.str "18:00")) = true) (msg : String) :
    generateTimeSlots fuel doctor booked ≠ .thrown msg := by
  unfold generateTimeSlots
  simp only [hs, he]
  split
  · rename_i h; simp at h
  · split
    · simp
    · exact slotLoop_ne_thrown _ _ _ _ _ _ _

/-! ## A negative duration -/

theorem slotLoop_negative (booked : List JsVal) (d e : Int) (hd : d < 0) :
    ∀ (fuel : Nat) (cur : Int) (acc : List Slot), cur + d ≤ e →
      slotLoop booked d e fuel cur acc = .outOfFuel := by
  intro fuel
  induction fuel with
  | zero => intro cur acc _; rfl
  | succ f ih =>
    intro cur acc h
    rw [slotLoop_step _ _ _ _ _ _ h]
    exact ih _ _ (by omega)

theorem generateTimeSlots_negative (s e : String) (a b : Nat) (d : Int) (booked : List JsVal)
    (fuel : Nat) (hs : IsTimeOfDay s a) (he : IsTimeOfDay e b) (hab : a < b) (hd : d < 0) :
    generateTimeSlots fuel ⟨.str s, .str e, .num d⟩ booked = .outOfFuel := by
  have hvs : isValidTime (.str s) = true := (isValidTime_str_iff s).2 ⟨a, hs⟩
  have hve : isValidTime (.str e) = true := (isValidTime_str_iff e).2 ⟨b, he⟩
  have hd0 : d ≠ 0 := by omega
  simp only [generateTimeSlots, jsOr_timeOfDay s a hs, jsOr_timeOfDay e b he, parseInt_num,
    hvs, hve, toStr, timeToMinutes_of_isTimeOfDay s a hs, timeToMinutes_of_isTimeOfDay e b he,
    numOr, if_neg hd0, Bool.not_true, Bool.or_self, Bool.false_eq_true, if_false]
  rw [if_neg (by push_neg; exact_mod_cast hab)]
  exact slotLoop_negative booked d b hd fuel a [] (by omega)

/-! ## The route `POST /api/appointments` -/

theorem sqlBind_of_truthy (v : JsVal) (h : truthy v = true) : sqlBind v = v ∧ v ≠ .null := by
  cases v <;> simp_all [truthy, sqlBind]

theorem isActiveStatus_iff (s : String) :
    isActiveStatus s = true ↔ s = "confirmed" ∨ s = "pending" := by
  simp [isActiveStatus]

theorem occupies_iff (d dt t : JsVal) (a : Appointment) (hd : truthy d = true)
    (hdt : truthy dt = true) (ht : truthy t = true) :
    occupies d dt t a = true ↔
      a.doctor_id = d ∧ a.appointment_date = dt ∧ a.appointment_time = t ∧
        (a.status = "confirmed" ∨ a.status = "pending") := by
  obtain ⟨e1, n1⟩ := sqlBind_of_truthy d hd
  obtain ⟨e2, n2⟩ := sqlBind_of_truthy dt hdt
  obtain ⟨e3, n3⟩ := sqlBind_of_truthy t ht
  simp only [occupies, sqlEq, e1, e2, e3, Bool.and_eq_true, bne_iff_ne, ne_eq, beq_iff_eq,
    isActiveStatus_iff]
  constructor
  · rintro ⟨⟨⟨⟨⟨-, -⟩, h1⟩, ⟨⟨-, -⟩, h2⟩⟩, ⟨⟨-, -⟩, h3⟩⟩, h4⟩
    exact ⟨h1, h2, h3, h4⟩
  · rintro ⟨h1, h2, h3, h4⟩
    exact ⟨⟨⟨⟨⟨h1 ▸ n1, n1⟩, h1⟩, ⟨⟨h2 ▸ n2, n2⟩, h2⟩⟩, ⟨⟨h3 ▸ n3, n3⟩, h3⟩⟩, h4⟩

theorem find_occupies_isSome (store : List Appointment) (req : BookingRequest)
    (h : HasRequiredFields req) :
    (store.find? (occupies req.doctor_id req.appointment_date req.appointment_time)).isSome =
        true ↔
      HasActiveAppointment store req.doctor_id req.appointment_date req.appointment_time := by
  obtain ⟨h1, -, -, -, h5, h6⟩ := h
  rw [List.find?_isSome]
  constructor
  · rintro ⟨a, ha, hp⟩
    exact ⟨a, ha, (occupies_iff _ _ _ a h1 h5 h6).1 hp⟩
  · rintro ⟨a, ha, hp⟩
    exact ⟨a, ha, (occupies_iff _ _ _ a h1 h5 h6).2 hp⟩

theorem presence_check_of_required (req : BookingRequest) (h : HasRequiredFields req) :
    (!truthy req.doctor_id || !truthy req.patient_name || !truthy req.patient_email ||
      !truthy req.patient_phone || !truthy req.appointment_date ||
      !truthy req.appointment_time) = false := by
  obtain ⟨h1, h2, h3, h4, h5, h6⟩ := h
  simp [h1, h2, h3, h4, h5, h6]

theorem presence_check_of_not_required (req : BookingRequest) (h : ¬ HasRequiredFields req) :
    (!truthy req.doctor_id || !truthy req.patient_name || !truthy req.patient_email ||
      !truthy req.patient_phone || !truthy req.appointment_date ||
      !truthy req.appointment_time) = true := by
  by_contra hc
  apply h
  simp only [Bool.or_eq_true, Bool.not_eq_true', not_or, Bool.not_eq_false] at hc
  obtain ⟨⟨⟨⟨⟨h1, h2⟩, h3⟩, h4⟩, h5⟩, h6⟩ := hc
  exact ⟨h1, h2, h3, h4, h5, h6⟩

theorem attemptBook_missing (now : String) (store : List Appointment) (req : BookingRequest)
    (h : ¬ HasRequiredFields req) :
    attemptBook now store req =
      (⟨400, some "Todos los campos obligatorios deben ser completados"⟩, store) := by
  rw [attemptBook, if_pos (presence_check_of_not_required req h)]

theorem attemptBook_conflict (now : String) (store : List Appointment) (req : BookingRequest)
    (h : HasRequiredFields req)
    (hc : HasActiveAppointment store req.doctor_id req.appointment_date req.appointment_time) :
    attemptBook now store req =
      (⟨409, some
        "Lo sentimos, ese horario ya está reservado. Por favor elige otro horario."⟩,
        store) := by
  have hf := (find_occupies_isSome store req h).2 hc
  rw [attemptBook, if_neg (by simp [presence_check_of_required req h])]
  cases hfind : store.find? (occupies req.doctor_id req.appointment_date req.appointment_time)
    with
  | none => rw [hfind] at hf; exact absurd hf (by simp)
  | some a => rfl

theorem attemptBook_free (now : String) (store : List Appointment) (req : BookingRequest)
    (h : HasRequiredFields req)
    (hc : ¬ HasActiveAppointment store req.doctor_id req.appointment_date
      req.appointment_time) :
    attemptBook now store req = (⟨201, none⟩, store ++ [insertedRow now store req]) := by
  have hf := (find_occupies_isSome store req h).not.2 hc
  rw [attemptBook, if_neg (by simp [presence_check_of_required req h])]
  cases hfind : store.find? (occupies req.doctor_id req.appointment_date req.appointment_time)
    with
  | none => rfl
  | some a => rw [hfind] at hf; exact absurd rfl hf

theorem truthy_of_missing (v : JsVal) (h : IsMissing v) : truthy v = false := by
  rcases h with rfl | rfl | rfl <;> rfl

theorem id_lt_nextId (store : List Appointment) (a : Appointment) (h : a ∈ store) :
    a.id < nextId store := by
  induction store with
  | nil => cases h
  | cons b bs ih =>
    simp only [nextId, List.map_cons, List.foldr_cons] at ih ⊢
    rcases List.mem_cons.1 h with rfl | h
    · omega
    · have := ih h
      omega

theorem insertedRow_fields (now : String) (store : List Appointment) (req : BookingRequest)
    (h : HasRequiredFields req) :
    (insertedRow now store req).doctor_id = req.doctor_id ∧
    (insertedRow now store req).patient_name = req.patient_name ∧
    (insertedRow now store req).patient_email = req.patient_email ∧
    (insertedRow now store req).patient_phone = req.patient_phone ∧
    (insertedRow now store req).appointment_date = req.appointment_date ∧
    (insertedRow now store req).appointment_time = req.appointment_time := by
  obtain ⟨h1, h2, h3, h4, h5, h6⟩ := h
  exact ⟨(sqlBind_of_truthy _ h1).1, (sqlBind_of_truthy _ h2).1, (sqlBind_of_truthy _ h3).1,
    (sqlBind_of_truthy _ h4).1, (sqlBind_of_truthy _ h5).1, (sqlBind_of_truthy _ h6).1⟩

theorem attemptBook_cases (now : String) (store : List Appointment) (req : BookingRequest) :
    (attemptBook now store req).2 = store ∨
      (HasRequiredFields req ∧
        ¬ HasActiveAppointment store req.doctor_id req.appointment_date
          req.appointment_time ∧
        attemptBook now store req = (⟨201, none⟩, store ++ [insertedRow now store req])) := by
  by_cases h : HasRequiredFields req
  · by_cases hc : HasActiveAppointment store req.doctor_id req.appointment_date
        req.appointment_time
    · left; rw [attemptBook_conflict now store req h hc]
    · right; exact ⟨h, hc, attemptBook_free now store req h hc⟩
  · left; rw [attemptBook_missing now store req h]

theorem attemptBook_noDoubleBooking (now : String) (store : List Appointment)
    (req : BookingRequest) (h : NoDoubleBooking store) :
    NoDoubleBooking (attemptBook now store req).2 := by
  rcases attemptBook_cases now store req with e | ⟨hr, hc, e⟩
  · rw [e]; exact h
  · rw [e]
    unfold NoDoubleBooking
    rw [List.pairwise_append]
    refine ⟨h, List.pairwise_singleton _ _, ?_⟩
    intro a ha b hb
    rw [List.mem_singleton] at hb
    subst hb
    rintro ⟨hact, -, hd, hdt, ht⟩
    obtain ⟨f1, -, -, -, f5, f6⟩ := insertedRow_fields now store req hr
    exact hc ⟨a, ha, hd.trans f1, hdt.trans f5, ht.trans f6, (isActiveStatus_iff _).1 hact⟩

theorem attemptBook_uniqueIds (now : String) (store : List Appointment)
    (req : BookingRequest) (h : UniqueIds store) :
    UniqueIds (attemptBook now store req).2 := by
  rcases attemptBook_cases now store req with e | ⟨-, -, e⟩
  · rw [e]; exact h
  · rw [e]
    unfold UniqueIds at h ⊢
    rw [List.map_append, List.nodup_append]
    refine ⟨h, by simp, ?_⟩
    intro x hx hy
    simp only [List.map_cons, List.map_nil, List.mem_singleton] at hy
    obtain ⟨a, ha, rfl⟩ := List.mem_map.1 hx
    have := id_lt_nextId store a ha
    rw [hy] at this
    exact absurd this (by simp [insertedRow])

/-! ## The route `PATCH /api/appointments/:id/status` -/

theorem validStatus_truthy (s : String) (hs : s ∈ validStatuses) :
    truthy (.str s) = true := by
  simp only [validStatuses, List.mem_cons, List.mem_singleton, List.not_mem_nil, or_false] at hs
  rcases hs with rfl | rfl | rfl | rfl | rfl <;> rfl

theorem validStatus_contains (status : JsVal) :
    (validStatuses.map JsVal.str).contains status = true ↔
      ∃ s ∈ validStatuses, status = .str s := by
  simp only [List.contains_iff_exists_mem_beq, List.mem_map, beq_iff_eq]
  constructor
  · rintro ⟨v, ⟨s, hs, rfl⟩, e⟩; exact ⟨s, hs, e⟩
  · rintro ⟨s, hs, e⟩; exact ⟨.str s, ⟨s, hs, rfl⟩, e⟩

theorem setStatus_invalid_eq (now : String) (store : List Appointment) (appointmentId : Nat)
    (status : JsVal) (h : ∀ s ∈ validStatuses, status ≠ .str s) :
    (setStatus now store appointmentId status).1.code = 400 ∧
      (setStatus now store appointmentId status).2 = store := by
  unfold setStatus
  split
  · exact ⟨rfl, rfl⟩
  · rw [if_pos]
    · exact ⟨rfl, rfl⟩
    · rw [Bool.not_eq_true', ← Bool.not_eq_true, validStatus_contains]
      rintro ⟨s, hs, e⟩
      exact h s hs e

theorem find_id_isSome (store : List Appointment) (appointmentId : Nat) :
    (store.find? (fun a => a.id == appointmentId)).isSome = true ↔
      ∃ a ∈ store, a.id = appointmentId := by
  simp [List.find?_isSome]

theorem setStatus_valid_eq (now : String) (store : List Appointment) (appointmentId : Nat)
    (s : String) (hs : s ∈ validStatuses) :
    setStatus now store appointmentId (.str s) =
      match store.find? (fun a => a.id == appointmentId) with
      | none => (⟨404, some "Cita no encontrada"⟩, store)
      | some _ =>
        if (store.filter (fun a => a.id == appointmentId)).length = 0 then
          (⟨404, some "No se pudo actualizar la cita"⟩,
            store.map (withStatus now appointmentId s))
        else (⟨200, none⟩, store.map (withStatus now appointmentId s)) := by
  have h1 : (!truthy (.str s)) = false := by simp [validStatus_truthy s hs]
  have h2 : (!(validStatuses.map JsVal.str).contains (.str s)) = false := by
    rw [Bool.not_eq_false', validStatus_contains]
    exact ⟨s, hs, rfl⟩
  unfold setStatus
  simp only [h1, h2, Bool.false_eq_true, if_false, toStr]
  rfl

theorem setStatus_unknown_eq (now : String) (store : List Appointment) (appointmentId : Nat)
    (s : String) (hs : s ∈ validStatuses) (hid : ∀ a ∈ store, a.id ≠ appointmentId) :
    setStatus now store appointmentId (.str s) =
      (⟨404, some "Cita no encontrada"⟩, store) := by
  rw [setStatus_valid_eq now store appointmentId s hs]
  have : store.find? (fun a => a.id == appointmentId) = none := by
    rw [List.find?_eq_none]
    intro a ha
    simpa using hid a ha
  rw [this]

theorem setStatus_known_eq (now : String) (store : List Appointment) (appointmentId : Nat)
    (s : String) (hs : s ∈ validStatuses) (hid : ∃ a ∈ store, a.id = appointmentId) :
    setStatus now store appointmentId (.str s) =
      (⟨200, none⟩, store.map (withStatus now appointmentId s)) := by
  rw [setStatus_valid_eq now store appointmentId s hs]
  have hf := (find_id_isSome store appointmentId).2 hid
  obtain ⟨a, ha, hida⟩ := hid
  have hlen : (store.filter (fun a => a.id == appointmentId)).length ≠ 0 := by
    have : a ∈ store.filter (fun a => a.id == appointmentId) := by
      simp [List.mem_filter, ha, hida]
    intro h0
    rw [List.length_eq_zero] at h0
    rw [h0] at this
    cases this
  cases hfind : store.find? (fun a => a.id == appointmentId) with
  | none => rw [hfind] at hf; exact absurd hf (by simp)
  | some b => simp only [if_neg hlen]

theorem setStatus_cases (now : String) (store : List Appointment) (appointmentId : Nat)
    (status : JsVal) :
    (setStatus now store appointmentId status).2 = store ∨
      ∃ s ∈ validStatuses, status = .str s ∧
        (setStatus now store appointmentId status).2 =
          store.map (withStatus now appointmentId s) := by
  by_cases hv : ∃ s ∈ validStatuses, status = .str s
  · obtain ⟨s, hs, rfl⟩ := hv
    by_cases hid : ∃ a ∈ store, a.id = appointmentId
    · right; exact ⟨s, hs, rfl, by rw [setStatus_known_eq now store appointmentId s hs hid]⟩
    · left
      rw [setStatus_unknown_eq now store appointmentId s hs
        (fun a ha e => hid ⟨a, ha, e⟩)]
  · left
    exact (setStatus_invalid_eq now store appointmentId status
      (fun s hs e => hv ⟨s, hs, e⟩)).2

theorem withStatus_id (now : String) (appointmentId : Nat) (s : String) (a : Appointment) :
    (withStatus now appointmentId s a).id = a.id := by
  unfold withStatus; split <;> rfl

theorem withStatus_sameSlot (now : String) (appointmentId : Nat) (s : String)
    (a b : Appointment) :
    SameSlot (withStatus now appointmentId s a) (withStatus now appointmentId s b) ↔
      SameSlot a b := by
  unfold withStatus SameSlot
  split <;> split <;> rfl

theorem withStatus_status (now : String) (appointmentId : Nat) (s : String)
    (a : Appointment) :
    (withStatus now appointmentId s a).status = if a.id = appointmentId then s else a.status := by
  unfold withStatus; split <;> rfl

theorem setStatus_uniqueIds (now : String) (store : List Appointment) (appointmentId : Nat)
    (status : JsVal) (h : UniqueIds store) :
    UniqueIds (setStatus now store appointmentId status).2 := by
  rcases setStatus_cases now store appointmentId status with e | ⟨s, -, -, e⟩
  · rw [e]; exact h
  · rw [e]
    unfold UniqueIds at h ⊢
    rw [List.map_map]
    have : (Appointment.id ∘ withStatus now appointmentId s) = Appointment.id := by
      funext a; exact withStatus_id now appointmentId s a
    rw [this]; exact h

theorem setStatus_noDoubleBooking (now : String) (store : List Appointment)
    (appointmentId : Nat) (status : JsVal) (hu : UniqueIds store) (h : NoDoubleBooking store)
    (hfree : (status ≠ .str "confirmed" ∧ status ≠ .str "pending") ∨
      ∀ a ∈ store, a.id = appointmentId → ∀ b ∈ store, b.id ≠ appointmentId →
        isActiveStatus b.status = true → ¬ SameSlot a b) :
    NoDoubleBooking (setStatus now store appointmentId status).2 := by
  rcases setStatus_cases now store appointmentId status with e | ⟨s, -, rfl, e⟩
  · rw [e]; exact h
  · rw [e]
    unfold NoDoubleBooking
    rw [List.pairwise_map]
    have hu2 : store.Pairwise (fun a b => a.id ≠ b.id) := by
      unfold UniqueIds at hu
      rwa [List.Nodup, List.pairwise_map] at hu
    refine List.Pairwise.imp_of_mem ?_ (h.and hu2)
    rintro a b ha hb ⟨hab, hne⟩ ⟨h1, h2, h3⟩
    rw [withStatus_status] at h1 h2
    rw [withStatus_sameSlot] at h3
    have hs : isActiveStatus s = true → ∀ a ∈ store, a.id = appointmentId → ∀ b ∈ store,
        b.id ≠ appointmentId → isActiveStatus b.status = true → ¬ SameSlot a b := by
      intro hact
      rcases hfree with ⟨n1, n2⟩ | hfree
      · rcases (isActiveStatus_iff s).1 hact with rfl | rfl
        · exact absurd rfl n1
        · exact absurd rfl n2
      · exact hfree
    by_cases ea : a.id = appointmentId
    · by_cases eb : b.id = appointmentId
      · exact hne (ea.trans eb.symm)
      · rw [if_pos ea] at h1
        rw [if_neg eb] at h2
        exact hs h1 a ha ea b hb eb h2 h3
    · by_cases eb : b.id = appointmentId
      · rw [if_neg ea] at h1
        rw [if_pos eb] at h2
        exact hs h2 b hb eb a ha ea h1 ⟨h3.1.symm, h3.2.1.symm, h3.2.2.symm⟩
      · rw [if_neg ea] at h1
        rw [if_neg eb] at h2
        exact hab ⟨h1, h2, h3⟩

/-! ## Sequences of operations -/

theorem sampleRequest_required : HasRequiredFields sampleRequest :=
  ⟨rfl, rfl, rfl, rfl, rfl, rfl⟩

theorem runOperations_invariant (ops : List Operation)
    (hops : ∀ op ∈ ops, ∀ now appointmentId status,
      op = Operation.status now appointmentId status →
        status ≠ .str "confirmed" ∧ status ≠ .str "pending") :
    ∀ store : List Appointment, UniqueIds store → NoDoubleBooking store →
      UniqueIds (runOperations store ops) ∧ NoDoubleBooking (runOperations store ops) := by
  induction ops with
  | nil => intro store hu hn; exact ⟨hu, hn⟩
  | cons op ops ih =>
    intro store hu hn
    have hrest := ih (fun o ho => hops o (List.mem_cons_of_mem _ ho))
    show UniqueIds (runOperations (applyOperation store op) ops) ∧
      NoDoubleBooking (runOperations (applyOperation store op) ops)
    cases op with
    | book now req =>
      exact hrest _ (attemptBook_uniqueIds now store req hu)
        (attemptBook_noDoubleBooking now store req hn)
    | status now appointmentId status =>
      have hs := hops _ (List.mem_cons_self _ _) now appointmentId status rfl
      exact hrest _ (setStatus_uniqueIds now store appointmentId status hu)
        (setStatus_noDoubleBooking now store appointmentId status hu hn (Or.inl hs))

/-! ## The `try` block of `timeToMinutes` -/

theorem timeToMinutes_eq_try (time : String) :
    timeToMinutes time = (timeToMinutesTry time).getD 540 := by
  unfold timeToMinutes timeToMinutesTry
  split <;> rfl

theorem timeToMinutesTry_of_isTimeOfDay (s : String) (t : Nat) (h : IsTimeOfDay s t) :
    timeToMinutesTry s = some (t : Int) := by
  obtain ⟨hh, m, h1, h2, rfl, h3 | ⟨h3, h4⟩⟩ := h
  · subst h3
    simp only [timeToMinutesTry, splitColon_clock hh m h1 h2]
    push_cast; rfl
  · subst h4
    simp only [timeToMinutesTry, splitColon_shortClock hh m h3 h2]
    push_cast; rfl

theorem timeToMinutesTry_of_isValidTime (v : JsVal) (h : isValidTime v = true) :
    ∃ t : Nat, timeToMinutesTry (toStr v) = some (t : Int) := by
  obtain ⟨s, t, rfl, ht⟩ := (isValidTime_iff v).1 h
  exact ⟨t, timeToMinutesTry_of_isTimeOfDay s t ht⟩

theorem generateTimeSlots_thrown_of_invalid (fuel : Nat) (doctor : Doctor)
    (booked : List JsVal)
    (h : isValidTime (jsOr doctor.working_hours_start (.str "09:00")) = false ∨
      isValidTime (jsOr doctor.working_hours_end (.str "18:00")) = false) :
    generateTimeSlots fuel doctor booked = .thrown "Formato de hora inválido" := by
  unfold generateTimeSlots
  simp only
  rw [if_pos]
  rcases h with h | h <;> simp [h]

/-! ## The number of iterations -/

theorem slotLoop_short (booked : List JsVal) (d e : Int) (hd : 0 < d) :
    ∀ (fuel n : Nat) (cur : Int) (acc : List Slot), fuel ≤ n → cur + n * d ≤ e →
      slotLoop booked d e fuel cur acc = .outOfFuel := by
  intro fuel
  induction fuel with
  | zero => intro n cur acc _ _; rfl
  | succ f ih =>
    intro n cur acc hf hn
    obtain ⟨m, rfl⟩ := Nat.exists_eq_succ_of_ne_zero (by omega : n ≠ 0)
    push_cast at hn
    have hmd : 0 ≤ (m : Int) * d := by positivity
    rw [slotLoop_step _ _ _ _ _ _ (by nlinarith)]
    exact ih m _ _ (by omega) (by linarith)

theorem generateTimeSlots_outOfFuel (s e : String) (a b d : Nat) (booked : List JsVal)
    (fuel : Nat) (hs : IsTimeOfDay s a) (he : IsTimeOfDay e b) (hab : a < b) (hd : 0 < d)
    (hf : fuel ≤ (b - a) / d) :
    generateTimeSlots fuel ⟨.str s, .str e, .num d⟩ booked = .outOfFuel := by
  have hvs : isValidTime (.str s) = true := (isValidTime_str_iff s).2 ⟨a, hs⟩
  have hve : isValidTime (.str e) = true := (isValidTime_str_iff e).2 ⟨b, he⟩
  have hd0 : (d : Int) ≠ 0 := by omega
  simp only [generateTimeSlots, jsOr_timeOfDay s a hs, jsOr_timeOfDay e b he, parseInt_num,
    hvs, hve, toStr, timeToMinutes_of_isTimeOfDay s a hs, timeToMinutes_of_isTimeOfDay e b he,
    numOr, if_neg hd0, Bool.not_true, Bool.or_self, Bool.false_eq_true, if_false]
  rw [if_neg (by push_neg; exact_mod_cast hab)]
  refine slotLoop_short booked d b (by exact_mod_cast hd) fuel ((b - a) / d) a [] hf ?_
  have h1 : (b - a) / d * d ≤ b - a := Nat.div_mul_le_self _ _
  have h2 : a + (b - a) / d * d ≤ b := by omega
  exact_mod_cast h2

theorem mem_expected (booked : List JsVal) (a b d : Nat) (hd : 0 < d) (x : Slot)
    (hx : x ∈ ((slotTimes a d ((b - a) / d)).map slotAt).filter (isOpen booked)) :
    ∃ t : Nat, x = slotAt (t : Int) ∧ a ≤ t ∧ t + d ≤ b := by
  rw [List.mem_filter, slotTimes_eq_natCast, List.map_map, List.mem_map] at hx
  obtain ⟨⟨k, hk, rfl⟩, -⟩ := hx
  have hk2 : k < (b - a) / d := List.mem_range.1 hk
  have hab : a ≤ b := by
    by_contra hne
    rw [Nat.sub_eq_zero_of_le (by omega)] at hk2
    simp at hk2
  have hw := (lt_div_iff_window a b d k hab hd).1 hk2
  exact ⟨a + k * d, rfl, by omega, by omega⟩

/-! ## The route `GET /api/doctors/:id/availability` -/


theorem sqlEq_num (v : JsVal) (n : Int) : sqlEq v (.num n) = true ↔ v = .num n := by
  cases v <;> simp [sqlEq]

theorem sqlEq_of_truthy (v w : JsVal) (hw : truthy w = true) :
    sqlEq v (sqlBind w) = true ↔ v = w := by
  obtain ⟨h1, h2⟩ := sqlBind_of_truthy w hw
  rw [h1]
  cases v <;> cases w <;> simp_all [sqlEq]

theorem bookedOn_iff (doctorId : Nat) (date : JsVal) (a : Appointment)
    (hdate : truthy date = true) :
    bookedOn doctorId date a = true ↔ IsBookedOn doctorId date a := by
  simp only [bookedOn, Bool.and_eq_true, sqlEq_num, sqlEq_of_truthy _ _ hdate,
    isActiveStatus_iff, IsBookedOn, and_assoc]

theorem filter_bookedOn (doctorId : Nat) (date : JsVal) (store : List Appointment)
    (hdate : truthy date = true) :
    store.filter (bookedOn doctorId date) =
      store.filter fun a => decide (IsBookedOn doctorId date a) := by
  refine List.filter_congr fun a _ => ?_
  rw [Bool.eq_iff_iff, bookedOn_iff doctorId date a hdate, decide_eq_true_iff]

theorem find_activeDoctor (db : Database) (doctorId : Nat) (doctor : DoctorRow)
    (h : IsActiveDoctor db doctorId doctor) :
    (db.doctors.find? fun d => d.id == doctorId && sqlEq d.is_active (.num 1)) =
      some doctor := by
  obtain ⟨hmem, hid, hact, huniq⟩ := h
  have hp : ∀ d ∈ db.doctors,
      (d.id == doctorId && sqlEq d.is_active (.num 1)) = true → d = doctor := by
    intro d hd hpd
    simp only [Bool.and_eq_true, beq_iff_eq] at hpd
    exact huniq d hd hpd.1
  have hq : (doctor.id == doctorId && sqlEq doctor.is_active (.num 1)) = true := by
    simp [hid, hact, sqlEq]
  generalize db.doctors = l at hmem hp
  induction l with
  | nil => cases hmem
  | cons x xs ih =>
    rw [List.find?_cons]
    by_cases hx : (x.id == doctorId && sqlEq x.is_active (.num 1)) = true
    · rw [hx, hp x (List.mem_cons_self _ _) hx]
    · rw [Bool.not_eq_true] at hx
      rw [hx]
      rcases List.mem_cons.1 hmem with rfl | hm
      · rw [hq] at hx; cases hx
      · exact ih hm fun d hd => hp d (List.mem_cons_of_mem _ hd)

theorem find_activeDoctor_none (db : Database) (doctorId : Nat)
    (h : ∀ d ∈ db.doctors, d.id = doctorId → d.is_active ≠ .num 1) :
    (db.doctors.find? fun d => d.id == doctorId && sqlEq d.is_active (.num 1)) = none := by
  rw [List.find?_eq_none]
  intro d hd hp
  simp only [Bool.and_eq_true, beq_iff_eq, sqlEq_num] at hp
  exact h d hd hp.1 hp.2

theorem availability_of_activeDoctor (fuel : Nat) (db : Database) (doctorId : Nat)
    (date : JsVal) (doctor : DoctorRow) (hdate : truthy date = true)
    (hdoc : IsActiveDoctor db doctorId doctor) :
    availability fuel db doctorId date =
      match generateTimeSlots fuel doctor.hours
        ((db.appointments.filter (bookedOn doctorId date)).map
          Appointment.appointment_time) with
      | .returned availableSlots =>
        .returned (.success doctor availableSlots
          ((db.appointments.filter (bookedOn doctorId date)).map
            Appointment.appointment_time))
      | .thrown _ =>
        .returned (.failure ⟨500, some "Error generando horarios disponibles"⟩)
      | .outOfFuel => .outOfFuel := by
  unfold availability
  rw [hdate, find_activeDoctor db doctorId doctor hdoc]
  rfl

theorem availability_returned (fuel : Nat) (db : Database) (doctorId : Nat)
    (date : JsVal) (doctor : DoctorRow) (hdate : truthy date = true)
    (hdoc : IsActiveDoctor db doctorId doctor) (slots : List Slot)
    (h : generateTimeSlots fuel doctor.hours
      ((db.appointments.filter (bookedOn doctorId date)).map
        Appointment.appointment_time) = .returned slots) :
    availability fuel db doctorId date =
      .returned (.success doctor slots
        ((db.appointments.filter (bookedOn doctorId date)).map
          Appointment.appointment_time)) := by
  rw [availability_of_activeDoctor fuel db doctorId date doctor hdate hdoc, h]

theorem availability_success (fuel : Nat) (db : Database) (doctorId : Nat)
    (date : JsVal) (doctor d : DoctorRow) (hdate : truthy date = true)
    (hdoc : IsActiveDoctor db doctorId doctor) (slots : List Slot) (booked : List JsVal)
    (h : availability fuel db doctorId date = .returned (.success d slots booked)) :
    d = doctor ∧
      booked = (db.appointments.filter (bookedOn doctorId date)).map
        Appointment.appointment_time ∧
      generateTimeSlots fuel doctor.hours booked = .returned slots := by
  rw [availability_of_activeDoctor fuel db doctorId date doctor hdate hdoc] at h
  split at h
  · rename_i x heq
    injection h with h
    injection h with h1 h2 h3
    subst h1 h2 h3
    exact ⟨rfl, rfl, heq⟩
  · injection h with h; cases h
  · cases h

/-! ## The frame of a status change -/

theorem setStatus_ok (now : String) (store : List Appointment) (appointmentId : Nat)
    (status : JsVal) (h : (setStatus now store appointmentId status).1.code = 200) :
    ∃ s ∈ validStatuses, status = .str s ∧ (∃ a ∈ store, a.id = appointmentId) ∧
      (setStatus now store appointmentId status).2 =
        store.map (withStatus now appointmentId s) := by
  by_cases hv : ∃ s ∈ validStatuses, status = .str s
  · obtain ⟨s, hs, rfl⟩ := hv
    by_cases hid : ∃ a ∈ store, a.id = appointmentId
    · exact ⟨s, hs, rfl, hid, by rw [setStatus_known_eq now store appointmentId s hs hid]⟩
    · push_neg at hid
      rw [setStatus_unknown_eq now store appointmentId s hs hid] at h
      have hne : (404 : Nat) ≠ 200 := by decide
      exact absurd h hne
  · push_neg at hv
    have h4 := (setStatus_invalid_eq now store appointmentId status hv).1
    rw [h4] at h
    have hne : (400 : Nat) ≠ 200 := by decide
    exact absurd h hne

theorem filter_id_length (store : List Appointment) (a : Appointment) (ha : a ∈ store)
    (hu : UniqueIds store) :
    (store.filter fun b => decide (b.id = a.id)).length = 1 := by
  induction store with
  | nil => cases ha
  | cons x xs ih =>
    have hu2 : x.id ∉ xs.map Appointment.id ∧ (xs.map Appointment.id).Nodup :=
      List.nodup_cons.1 hu
    rcases List.mem_cons.1 ha with rfl | hm
    · have hnil : xs.filter (fun b => decide (b.id = a.id)) = [] := by
        rw [List.filter_eq_nil_iff]
        intro b hb hbe
        exact hu2.1 (List.mem_map.2 ⟨b, hb, of_decide_eq_true hbe⟩)
      simp [List.filter_cons, hnil]
    · have hne : x.id ≠ a.id := fun e => hu2.1 (List.mem_map.2 ⟨a, hm, e.symm⟩)
      simp only [List.filter_cons, decide_eq_true_eq, hne, if_false]
      exact ih hm hu2.2

/-! ## Availability after a booking and after a status change -/

theorem attemptBook_created (now : String) (store : List Appointment) (req : BookingRequest)
    (h : (attemptBook now store req).1.code = 201) :
    HasRequiredFields req ∧
      ¬ HasActiveAppointment store req.doctor_id req.appointment_date req.appointment_time ∧
      attemptBook now store req = (⟨201, none⟩, store ++ [insertedRow now store req]) := by
  by_cases hr : HasRequiredFields req
  · by_cases hc : HasActiveAppointment store req.doctor_id req.appointment_date
        req.appointment_time
    · rw [attemptBook_conflict now store req hr hc] at h
      have hne : (409 : Nat) ≠ 201 := by decide
      exact absurd h hne
    · exact ⟨hr, hc, attemptBook_free now store req hr hc⟩
  · rw [attemptBook_missing now store req hr] at h
    have hne : (400 : Nat) ≠ 201 := by decide
    exact absurd h hne

theorem isOpen_append (booked : List JsVal) (t : JsVal) (s : Slot) :
    isOpen (booked ++ [t]) s = (isOpen booked s && decide (JsVal.str s.time ≠ t)) := by
  simp only [isOpen, List.contains_eq_any_beq, List.any_append, List.any_cons, List.any_nil,
    Bool.or_false, Bool.not_or]
  congr 1
  by_cases h : JsVal.str s.time = t
  · simp [h]
  · simp [h]

theorem generateTimeSlots_returned (fuel : Nat) (doctor : Doctor) (booked : List JsVal)
    (slots : List Slot) (h : generateTimeSlots fuel doctor booked = .returned slots) :
    ∃ window, generateTimeSlots fuel doctor [] = .returned window ∧
      slots = window.filter (isOpen booked) := by
  rw [generateTimeSlots_filter fuel doctor booked] at h
  cases hw : generateTimeSlots fuel doctor [] with
  | returned window =>
    rw [hw] at h
    injection h with h
    exact ⟨window, rfl, h.symm⟩
  | thrown m => rw [hw] at h; cases h
  | outOfFuel => rw [hw] at h; cases h

theorem generateTimeSlots_of_window (fuel : Nat) (doctor : Doctor) (booked : List JsVal)
    (window : List Slot) (h : generateTimeSlots fuel doctor [] = .returned window) :
    generateTimeSlots fuel doctor booked = .returned (window.filter (isOpen booked)) := by
  rw [generateTimeSlots_filter fuel doctor booked, h]
  rfl

theorem released_free (now : String) (store : List Appointment) (a : Appointment)
    (s : String) (doctorId : Nat) (date t : JsVal)
    (honly : ∀ b ∈ store, IsBookedOn doctorId date b → b.appointment_time = t → b = a)
    (hs : s = "cancelled" ∨ s = "completed" ∨ s = "no_show") :
    ∀ b ∈ store.map (withStatus now a.id s),
      ¬ (IsBookedOn doctorId date b ∧ b.appointment_time = t) := by
  intro b' hb' ⟨⟨h1, h2, h3⟩, h4⟩
  obtain ⟨b, hb, rfl⟩ := List.mem_map.1 hb'
  by_cases hid : b.id = a.id
  · rw [withStatus_status, if_pos hid] at h3
    rcases hs with rfl | rfl | rfl <;> rcases h3 with h3 | h3 <;> revert h3 <;> decide
  · have hb2 : withStatus now a.id s b = b := by simp [withStatus, hid]
    rw [hb2] at h1 h2 h3 h4
    exact hid (congrArg Appointment.id (honly b hb ⟨h1, h2, h3⟩ h4))

/-! ## The join and the patient search -/

theorem mem_joinedRows (db : Database) (r : JoinedRow) :
    r ∈ joinedRows db ↔
      r.appointment ∈ db.appointments ∧ r.doctor ∈ db.doctors ∧
        r.specialty ∈ db.specialties ∧ r.appointment.doctor_id = .num r.doctor.id ∧
        r.doctor.specialty_id = .num r.specialty.id := by
  simp only [joinedRows, List.mem_flatMap, List.mem_filter, List.mem_map, sqlEq_num]
  constructor
  · rintro ⟨a, ha, d, ⟨hd, had⟩, s, ⟨hs, hds⟩, rfl⟩
    exact ⟨ha, hd, hs, had, hds⟩
  · rintro ⟨ha, hd, hs, had, hds⟩
    exact ⟨r.appointment, ha, r.doctor, ⟨hd, had⟩, r.specialty, ⟨hs, hds⟩, rfl⟩

theorem postAppointment_answer (now : String) (db : Database) (req : BookingRequest) :
    (postAppointment now db req).1 = (attemptBook now db.appointments req).1 := by
  unfold postAppointment
  simp only
  split <;> rfl

theorem postAppointment_created (now : String) (db : Database) (req : BookingRequest)
    (h : (postAppointment now db req).1.code = 201) :
    postAppointment now db req =
      (⟨201, none⟩,
        some ⟨nextId db.appointments,
          (joinedRows
            { db with
              appointments := db.appointments ++ [insertedRow now db.appointments req] }).find?
            fun r => r.appointment.id == nextId db.appointments⟩,
        { db with appointments := db.appointments ++ [insertedRow now db.appointments req] }) := by
  rw [postAppointment_answer] at h
  obtain ⟨-, -, heq⟩ := attemptBook_created now db.appointments req h
  unfold postAppointment
  simp only [heq, if_true]

theorem runOperations_patient_fields (ops : List Operation) :
    ∀ store : List Appointment,
      (∀ a ∈ store, truthy a.patient_email = true ∧ truthy a.patient_phone = true) →
      ∀ a ∈ runOperations store ops,
        truthy a.patient_email = true ∧ truthy a.patient_phone = true := by
  induction ops with
  | nil => intro store h; exact h
  | cons op ops ih =>
    intro store h
    show ∀ a ∈ runOperations (applyOperation store op) ops, _
    refine ih _ ?_
    cases op with
    | book now req =>
      show ∀ a ∈ (attemptBook now store req).2, _
      rcases attemptBook_cases now store req with e | ⟨hr, -, e⟩
      · rw [e]; exact h
      · rw [e]
        intro a ha
        rcases List.mem_append.1 ha with ha | ha
        · exact h a ha
        · obtain ⟨-, -, f3, f4, -, -⟩ := insertedRow_fields now store req hr
          rw [List.mem_singleton.1 ha, f3, f4]
          exact ⟨hr.2.2.1, hr.2.2.2.1⟩
    | status now appointmentId status =>
      show ∀ a ∈ (setStatus now store appointmentId status).2, _
      rcases setStatus_cases now store appointmentId status with e | ⟨s, -, -, e⟩
      · rw [e]; exact h
      · rw [e]
        intro a ha
        obtain ⟨b, hb, rfl⟩ := List.mem_map.1 ha
        have := h b hb
        unfold withStatus
        split <;> exact this

theorem sqlEq_empty_of_truthy (v : JsVal) (hv : truthy v = true) :
    sqlEq v (.str "") = false := by
  cases v <;> simp_all [sqlEq, truthy]

theorem jsOr_of_truthy (v w : JsVal) (h : truthy v = true) : jsOr v w = v := by
  simp [jsOr, h]

theorem jsOr_of_falsy (v w : JsVal) (h : truthy v = false) : jsOr v w = w := by
  simp [jsOr, h]

theorem patientMatches_both (email phone : JsVal) (a : Appointment)
    (he : truthy email = true) (hp : truthy phone = true) :
    patientMatches email phone a =
      decide (a.patient_email = email ∧ a.patient_phone = phone) := by
  rw [Bool.eq_iff_iff]
  simp only [patientMatches, he, hp, Bool.and_self, if_true, Bool.and_eq_true,
    sqlEq_of_truthy _ _ he, sqlEq_of_truthy _ _ hp, decide_eq_true_iff]

theorem patientMatches_email (email phone : JsVal) (a : Appointment)
    (he : truthy email = true) (hp : truthy phone = false)
    (ha : truthy a.patient_phone = true) :
    patientMatches email phone a = decide (a.patient_email = email) := by
  rw [Bool.eq_iff_iff]
  have hb : sqlBind (.str "") = .str "" := rfl
  simp only [patientMatches, he, hp, Bool.and_false, Bool.false_eq_true, if_false,
    jsOr_of_truthy _ _ he, jsOr_of_falsy _ _ hp, hb, sqlEq_empty_of_truthy _ ha,
    Bool.or_false, sqlEq_of_truthy _ _ he, decide_eq_true_iff]

theorem patientMatches_phone (email phone : JsVal) (a : Appointment)
    (he : truthy email = false) (hp : truthy phone = true)
    (ha : truthy a.patient_email = true) :
    patientMatches email phone a = decide (a.patient_phone = phone) := by
  rw [Bool.eq_iff_iff]
  have hb : sqlBind (.str "") = .str "" := rfl
  simp only [patientMatches, he, hp, Bool.false_and, Bool.false_eq_true, if_false,
    jsOr_of_truthy _ _ hp, jsOr_of_falsy _ _ he, hb, sqlEq_empty_of_truthy _ ha,
    Bool.false_or, sqlEq_of_truthy _ _ hp, decide_eq_true_iff]

theorem patientAppointments_success (db : Database) (email phone : JsVal)
    (h : truthy email = true ∨ truthy phone = true) :
    ∃ rows, patientAppointments db email phone = .success rows ∧
      rows.Perm ((joinedRows db).filter fun r => patientMatches email phone r.appointment) := by
  refine ⟨_, ?_, List.perm_insertionSort (fun x y => latestFirst x y = true) _⟩
  unfold patientAppointments
  rw [if_neg]
  rcases h with h | h <;> simp [h]

/-- The answer 201 of `POST /api/appointments`: the new id, and for `appointment` what
the join gives for the new row, which is a row as soon as the requested doctor is stored
with a stored specialty. -/
theorem postAppointment_joined (now : String) (db : Database) (req : BookingRequest)
    (h : (postAppointment now db req).1.code = 201) :
    ∃ record : Option JoinedRow,
      postAppointment now db req =
        (⟨201, none⟩, some ⟨(insertedRow now db.appointments req).id, record⟩,
          { db with appointments := db.appointments ++ [insertedRow now db.appointments req] }) ∧
      (∀ r, record = some r →
        r.appointment = insertedRow now db.appointments req ∧
          r.doctor ∈ db.doctors ∧ req.doctor_id = .num r.doctor.id ∧
          r.specialty ∈ db.specialties ∧ r.doctor.specialty_id = .num r.specialty.id) ∧
      ((∃ d ∈ db.doctors, req.doctor_id = .num d.id ∧
          ∃ s ∈ db.specialties, d.specialty_id = .num s.id) →
        record.isSome = true) := by
  have hreq : HasRequiredFields req :=
    (attemptBook_created now db.appointments req
      (by rw [← postAppointment_answer]; exact h)).1
  obtain ⟨f1, -, -, -, -, -⟩ := insertedRow_fields now db.appointments req hreq
  refine ⟨_, postAppointment_created now db req h, ?_, ?_⟩
  · intro r hr
    have hmem := (mem_joinedRows _ r).1 (List.mem_of_find?_eq_some hr)
    have hid : r.appointment.id = nextId db.appointments := by
      simpa using List.find?_some hr
    obtain ⟨ha, hd, hs, had, hds⟩ := hmem
    have hrow : r.appointment = insertedRow now db.appointments req := by
      rcases List.mem_append.1 ha with ha | ha
      · have := id_lt_nextId db.appointments r.appointment ha
        omega
      · exact List.mem_singleton.1 ha
    refine ⟨hrow, hd, ?_, hs, hds⟩
    rw [← f1, ← hrow]
    exact had
  · rintro ⟨d, hd, hdid, s, hs, hsid⟩
    rw [List.find?_isSome]
    refine ⟨⟨insertedRow now db.appointments req, d, s⟩, (mem_joinedRows _ _).2
      ⟨List.mem_append_right _ (List.mem_singleton.2 rfl), hd, hs, f1.trans hdid, hsid⟩, ?_⟩
    simp [insertedRow]

/-- The patient search on a table of appointments created through
`POST /api/appointments`: the selection it makes among the rows of the join. -/
theorem patientAppointments_joined (db : Database) (ops : List Operation) (email phone : JsVal)
    (hposts : db.appointments = runOperations [] ops) :
    (truthy email = false → truthy phone = false →
      patientAppointments db email phone =
        .failure ⟨400, some "Se requiere email o teléfono para buscar citas"⟩) ∧
    (truthy email = true → truthy phone = true →
      ∃ rows, patientAppointments db email phone = .success rows ∧
        rows.Perm ((joinedRows db).filter fun r =>
          decide (r.appointment.patient_email = email ∧
            r.appointment.patient_phone = phone))) ∧
    (truthy email = true → truthy phone = false →
      ∃ rows, patientAppointments db email phone = .success rows ∧
        rows.Perm ((joinedRows db).filter fun r =>
          decide (r.appointment.patient_email = email))) ∧
    (truthy email = false → truthy phone = true →
      ∃ rows, patientAppointments db email phone = .success rows ∧
        rows.Perm ((joinedRows db).filter fun r =>
          decide (r.appointment.patient_phone = phone))) ∧
    (∀ r, r ∈ joinedRows db ↔
      r.appointment ∈ db.appointments ∧ r.doctor ∈ db.doctors ∧
        r.specialty ∈ db.specialties ∧ r.appointment.doctor_id = .num r.doctor.id ∧
        r.doctor.specialty_id = .num r.specialty.id) := by
  have hstore : ∀ a ∈ db.appointments,
      truthy a.patient_email = true ∧ truthy a.patient_phone = true := by
    rw [hposts]
    exact runOperations_patient_fields ops [] (fun a ha => by cases ha)
  have hrow : ∀ r ∈ joinedRows db,
      truthy r.appointment.patient_email = true ∧
        truthy r.appointment.patient_phone = true :=
    fun r hr => hstore _ ((mem_joinedRows db r).1 hr).1
  refine ⟨?_, ?_, ?_, ?_, mem_joinedRows db⟩
  · intro he hp
    simp [patientAppointments, he, hp]
  · intro he hp
    obtain ⟨rows, h1, h2⟩ := patientAppointments_success db email phone (Or.inl he)
    refine ⟨rows, h1, ?_⟩
    rw [List.filter_congr fun r _ => patientMatches_both email phone r.appointment he hp] at h2
    exact h2
  · intro he hp
    obtain ⟨rows, h1, h2⟩ := patientAppointments_success db email phone (Or.inl he)
    refine ⟨rows, h1, ?_⟩
    rw [List.filter_congr fun r hr =>
      patientMatches_email email phone r.appointment he hp (hrow r hr).2] at h2
    exact h2
  · intro he hp
    obtain ⟨rows, h1, h2⟩ := patientAppointments_success db email phone (Or.inr hp)
    refine ⟨rows, h1, ?_⟩
    rw [List.filter_congr fun r hr =>
      patientMatches_phone email phone r.appointment he hp (hrow r hr).1] at h2
    exact h2

/-! ## Properties of the specification -/

/-- C1 (coverage): for a doctor whose start and end are valid times with the start
before the end and whose duration `d` is a positive integer, and for every booked list,
`generateTimeSlots` returns (given fuel above `(end - start) / d`) and the set of its
slot times is the set of `minutesToTime (start + k * d)` with `start + k * d + d ≤ end`,
minus the strings of the booked list. -/
theorem generateTimeSlots_coverage (s e : String) (a b d : Nat) (booked : List JsVal)
    (hs : IsTimeOfDay s a) (he : IsTimeOfDay e b) (hab : a < b) (hd : 0 < d) :
    ∃ slots : List Slot,
      (∀ fuel, (b - a) / d < fuel →
        generateTimeSlots fuel ⟨.str s, .str e, .num d⟩ booked = .returned slots) ∧
      ∀ t : String, t ∈ slots.map Slot.time ↔
        ((∃ k : Nat, a + k * d + d ≤ b ∧ t = minutesToTime ((a + k * d : Nat) : Int)) ∧
          JsVal.str t ∉ booked) := by
  refine ⟨_, fun fuel hf => generateTimeSlots_eq s e a b d booked fuel hs he hd hf, ?_⟩
  intro t
  simp only [List.mem_map, List.mem_filter, mem_slotTimes, isOpen, Bool.not_eq_true',
    ← Bool.not_eq_true, mem_contains_iff]
  constructor
  · rintro ⟨sl, ⟨⟨x, ⟨k, hk, rfl⟩, rfl⟩, hopen⟩, rfl⟩
    refine ⟨⟨k, (lt_div_iff_window a b d k hab.le hd).1 hk, ?_⟩, hopen⟩
    simp [slotAt]
  · rintro ⟨⟨k, hk, rfl⟩, hopen⟩
    have hk2 := (lt_div_iff_window a b d k hab.le hd).2 hk
    refine ⟨slotAt ((a + k * d : Nat) : Int), ⟨⟨_, ⟨k, hk2, ?_⟩, rfl⟩, hopen⟩, rfl⟩
    push_cast; ring

theorem generateTimeSlots_coverage_witness :
    ∃ slots : List Slot,
      (∀ fuel, (600 - 540) / 30 < fuel →
        generateTimeSlots fuel ⟨.str "09:00", .str "10:00", .num (30 : Nat)⟩ [.str "09:00"] =
          .returned slots) ∧
      ∀ t : String, t ∈ slots.map Slot.time ↔
        ((∃ k : Nat, 540 + k * 30 + 30 ≤ 600 ∧ t = minutesToTime ((540 + k * 30 : Nat) : Int)) ∧
          JsVal.str t ∉ [JsVal.str "09:00"]) :=
  generateTimeSlots_coverage "09:00" "10:00" 540 600 30 [.str "09:00"]
    ⟨9, 0, by decide, by decide, rfl, Or.inl rfl⟩ ⟨10, 0, by decide, by decide, rfl, Or.inl rfl⟩
    (by decide) (by decide)

/-- C2 (exclusion): whenever `generateTimeSlots` returns, whatever the doctor record and
the booked list, no returned slot has a time that occurs in the booked list. -/
theorem generateTimeSlots_exclusion (fuel : Nat) (doctor : Doctor) (booked : List JsVal)
    (slots : List Slot) (h : generateTimeSlots fuel doctor booked = .returned slots) :
    ∀ s ∈ slots, JsVal.str s.time ∉ booked :=
  generateTimeSlots_invariant (fun s => JsVal.str s.time ∉ booked) booked
    (fun _ ht => ht) fuel doctor slots h

theorem generateTimeSlots_exclusion_witness :
    generateTimeSlots 3 ⟨.str "09:00", .str "10:00", .num 30⟩ [.str "09:00"] =
        .returned [{ time := "09:30", display := "9:30 AM" }] ∧
      ∀ s ∈ [({ time := "09:30", display := "9:30 AM" } : Slot)],
        JsVal.str s.time ∉ [JsVal.str "09:00"] :=
  ⟨by decide,
    generateTimeSlots_exclusion 3 ⟨.str "09:00", .str "10:00", .num 30⟩ [.str "09:00"] _
      (by decide)⟩

/-- C3 (monotonicity): for valid start and end times and a positive duration,
`generateTimeSlots` returns a sequence whose slot times are strictly increasing, both as
minutes since midnight and as strings in the lexicographic order, so that no time occurs
twice. -/
theorem generateTimeSlots_strictly_increasing (s e : String) (a b d : Nat)
    (booked : List JsVal) (hs : IsTimeOfDay s a) (he : IsTimeOfDay e b) (hd : 0 < d) :
    ∃ slots : List Slot,
      (∀ fuel, (b - a) / d < fuel →
        generateTimeSlots fuel ⟨.str s, .str e, .num d⟩ booked = .returned slots) ∧
      List.Pairwise (fun x y => timeToMinutes x.time < timeToMinutes y.time) slots ∧
      List.Pairwise (fun x y => strLt x.time y.time) slots ∧
      (slots.map Slot.time).Nodup := by
  have hb := isTimeOfDay_lt e b he
  have hmin : List.Pairwise (fun x y => timeToMinutes x.time < timeToMinutes y.time)
      (((slotTimes a d ((b - a) / d)).map slotAt).filter (isOpen booked)) := by
    refine pairwise_expected _ a b d hb hd booked ?_
    intro t1 t2 h12 h2
    simp only [slotAt, timeToMinutes_minutesToTime t1 (by omega),
      timeToMinutes_minutesToTime t2 h2]
    exact_mod_cast h12
  refine ⟨_, fun fuel hf => generateTimeSlots_eq s e a b d booked fuel hs he hd hf, hmin, ?_, ?_⟩
  · refine pairwise_expected _ a b d hb hd booked ?_
    intro t1 t2 h12 h2
    exact minutesToTime_lt t1 t2 h12 h2
  · rw [List.Nodup, List.pairwise_map]
    refine hmin.imp ?_
    intro x y hxy hEq
    rw [hEq] at hxy
    exact lt_irrefl _ hxy

theorem generateTimeSlots_strictly_increasing_witness :
    ∃ slots : List Slot,
      (∀ fuel, (1080 - 540) / 30 < fuel →
        generateTimeSlots fuel ⟨.str "9:00", .str "18:00", .num (30 : Nat)⟩ [.str "12:00"] =
          .returned slots) ∧
      List.Pairwise (fun x y => timeToMinutes x.time < timeToMinutes y.time) slots ∧
      List.Pairwise (fun x y => strLt x.time y.time) slots ∧
      (slots.map Slot.time).Nodup :=
  generateTimeSlots_strictly_increasing "9:00" "18:00" 540 1080 30 [.str "12:00"]
    ⟨9, 0, by decide, by decide, rfl, Or.inr ⟨by decide, rfl⟩⟩
    ⟨18, 0, by decide, by decide, rfl, Or.inl rfl⟩ (by decide)

/-- C4 (boundary): for valid start and end times and a positive duration `d`,
`generateTimeSlots` returns the empty sequence, and raises no error, when the start
equals the end, when the start is after the end, and when `d` exceeds `end - start`,
whatever the booked list. -/
theorem generateTimeSlots_boundary (s e : String) (a b d : Nat) (booked : List JsVal)
    (fuel : Nat) (hs : IsTimeOfDay s a) (he : IsTimeOfDay e b) (hd : 0 < d)
    (hfuel : 0 < fuel) (h : a = b ∨ b < a ∨ (b : Int) - a < d) :
    generateTimeSlots fuel ⟨.str s, .str e, .num d⟩ booked = .returned [] := by
  have h0 : (b - a) / d = 0 := Nat.div_eq_of_lt (by omega)
  rw [generateTimeSlots_eq s e a b d booked fuel hs he hd (by omega), h0]
  rfl

theorem generateTimeSlots_boundary_witness :
    generateTimeSlots 1 ⟨.str "09:00", .str "09:00", .num (30 : Nat)⟩ [.str "09:00"] =
        .returned [] ∧
      generateTimeSlots 1 ⟨.str "10:00", .str "09:00", .num (30 : Nat)⟩ [] = .returned [] ∧
      generateTimeSlots 1 ⟨.str "09:00", .str "09:20", .num (30 : Nat)⟩ [] = .returned [] :=
  ⟨generateTimeSlots_boundary "09:00" "09:00" 540 540 30 [.str "09:00"] 1
      ⟨9, 0, by decide, by decide, rfl, Or.inl rfl⟩ ⟨9, 0, by decide, by decide, rfl, Or.inl rfl⟩
      (by decide) (by decide) (Or.inl rfl),
    generateTimeSlots_boundary "10:00" "09:00" 600 540 30 [] 1
      ⟨10, 0, by decide, by decide, rfl, Or.inl rfl⟩ ⟨9, 0, by decide, by decide, rfl, Or.inl rfl⟩
      (by decide) (by decide) (Or.inr (Or.inl (by decide))),
    generateTimeSlots_boundary "09:00" "09:20" 540 560 30 [] 1
      ⟨9, 0, by decide, by decide, rfl, Or.inl rfl⟩ ⟨9, 20, by decide, by decide, rfl, Or.inl rfl⟩
      (by decide) (by decide) (Or.inr (Or.inr (by decide)))⟩

/-- C5, the claim as stated fails: for the record with start "9:00", end "10:00" and
duration 30 the start, which defaulting leaves unchanged, is not a two-digit-hour `HH:MM`
string, yet `generateTimeSlots` raises no error and returns the slots 09:00 and 09:30. -/
theorem generateTimeSlots_short_hour_accepted :
    jsOr (.str "9:00") (.str "09:00") = .str "9:00" ∧
      ¬ IsHHMM (.str "9:00") ∧
      generateTimeSlots 3 ⟨.str "9:00", .str "10:00", .num 30⟩ [] =
        .returned [{ time := "09:00", display := "9:00 AM" },
          { time := "09:30", display := "9:30 AM" }] := by
  refine ⟨by decide, ?_, by decide⟩
  rintro ⟨h, m, -, -, e⟩
  injection e with e3
  have := congrArg String.length e3
  rw [clock_length] at this
  exact absurd this (by decide)

/-- C5 (validation), amended: `generateTimeSlots` raises the invalid-time-format error if
and only if, after defaulting, the start or the end is not a string made of an hour 0 to
23 written with one or two digits, a colon and a two-digit minute 00 to 59; it raises no
other error. -/
theorem generateTimeSlots_thrown_iff (fuel : Nat) (doctor : Doctor) (booked : List JsVal) :
    (generateTimeSlots fuel doctor booked = .thrown "Formato de hora inválido" ↔
      ¬ (IsTimeText (jsOr doctor.working_hours_start (.str "09:00")) ∧
        IsTimeText (jsOr doctor.working_hours_end (.str "18:00")))) ∧
    (∀ msg, generateTimeSlots fuel doctor booked = .thrown msg →
      msg = "Formato de hora inválido") := by
  rw [← isValidTime_iff, ← isValidTime_iff]
  unfold generateTimeSlots
  simp only
  split
  · rename_i h
    refine ⟨⟨fun _ => ?_, fun _ => rfl⟩, ?_⟩
    · simpa [-not_and, not_and_or] using h
    · intro msg hm; injection hm with hm; exact hm.symm
  · rename_i h
    have hv : isValidTime (jsOr doctor.working_hours_start (.str "09:00")) = true ∧
        isValidTime (jsOr doctor.working_hours_end (.str "18:00")) = true := by
      simpa [not_or] using h
    have hne : ∀ msg, (if timeToMinutes (toStr (jsOr doctor.working_hours_start (.str "09:00"))) ≥
          timeToMinutes (toStr (jsOr doctor.working_hours_end (.str "18:00")))
        then Outcome.returned []
        else slotLoop booked (numOr (parseInt doctor.consultation_duration) 30)
          (timeToMinutes (toStr (jsOr doctor.working_hours_end (.str "18:00")))) fuel
          (timeToMinutes (toStr (jsOr doctor.working_hours_start (.str "09:00")))) []) ≠
        .thrown msg := by
      intro msg
      split
      · simp
      · exact slotLoop_ne_thrown _ _ _ _ _ _ _
    refine ⟨⟨fun hm => absurd hm (hne _), fun hn => absurd hv hn⟩, ?_⟩
    intro msg hm
    exact absurd hm (hne _)

theorem generateTimeSlots_thrown_iff_witness :
    generateTimeSlots 3 ⟨.str "25:00", .null, .num 30⟩ [] =
        .thrown "Formato de hora inválido" ∧
      generateTimeSlots 3 ⟨.str "09:00", .str "9:60", .num 30⟩ [] =
        .thrown "Formato de hora inválido" :=
  ⟨(generateTimeSlots_thrown_iff 3 ⟨.str "25:00", .null, .num 30⟩ []).1.2
      (fun h => absurd ((isValidTime_iff _).2 h.1) (by decide)),
    (generateTimeSlots_thrown_iff 3 ⟨.str "09:00", .str "9:60", .num 30⟩ []).1.2
      (fun h => absurd ((isValidTime_iff _).2 h.2) (by decide))⟩

/-- C6 (round trip): for every valid `HH:MM` string `t`, that is a two-digit hour 00 to
23, a colon and a two-digit minute 00 to 59, `minutesToTime (timeToMinutes t) = t`. -/
theorem minutesToTime_timeToMinutes (h m : Nat) (hh : h < 24) (hm : m < 60) :
    minutesToTime (timeToMinutes (clock h m)) = clock h m := by
  rw [timeToMinutes_of_isTimeOfDay (clock h m) (h * 60 + m) ⟨h, m, hh, hm, rfl, Or.inl rfl⟩]
  exact minutesToTime_clock h m hh hm

theorem minutesToTime_timeToMinutes_witness :
    clock 17 5 = "17:05" ∧ minutesToTime (timeToMinutes (clock 17 5)) = clock 17 5 :=
  ⟨by decide, minutesToTime_timeToMinutes 17 5 (by decide) (by decide)⟩

/-- C7 (display format): for an hour `h` in 0..23 and a minute `m` in 0..59,
`formatTimeDisplay` of the `HH:MM` string of `(h, m)` is the hour `H` without padding
(12 when `h` is 0 or 12, `h` from 1 to 11, `h - 12` from 13 to 23), a colon, the minute
on two digits, a blank and `AM` when `h < 12`, `PM` otherwise; and every slot returned by
`generateTimeSlots` has `display = formatTimeDisplay time`. -/
theorem formatTimeDisplay_spec :
    (∀ h m : Nat, h < 24 → m < 60 →
      formatTimeDisplay (clock h m) =
        Nat.repr (if h = 0 ∨ h = 12 then 12 else if h ≤ 11 then h else h - 12) ++ ":" ++
          String.mk (twoDigits m) ++ " " ++ (if h < 12 then "AM" else "PM")) ∧
    (∀ (fuel : Nat) (doctor : Doctor) (booked : List JsVal) (slots : List Slot),
      generateTimeSlots fuel doctor booked = .returned slots →
        ∀ s ∈ slots, s.display = formatTimeDisplay s.time) :=
  ⟨formatTimeDisplay_clock, fun fuel doctor booked slots h =>
    generateTimeSlots_invariant (fun s => s.display = formatTimeDisplay s.time) booked
      (fun _ _ => rfl) fuel doctor slots h⟩

theorem formatTimeDisplay_spec_witness :
    (clock 0 5 = "00:05" ∧ formatTimeDisplay (clock 0 5) = "12:05 AM") ∧
    (clock 12 0 = "12:00" ∧ formatTimeDisplay (clock 12 0) = "12:00 PM") ∧
    (clock 9 30 = "09:30" ∧ formatTimeDisplay (clock 9 30) = "9:30 AM") ∧
    (clock 23 59 = "23:59" ∧ formatTimeDisplay (clock 23 59) = "11:59 PM") ∧
    (generateTimeSlots 3 ⟨.str "13:00", .str "14:00", .num 30⟩ [] =
        .returned [{ time := "13:00", display := "1:00 PM" },
          { time := "13:30", display := "1:30 PM" }] ∧
      ∀ s ∈ [({ time := "13:00", display := "1:00 PM" } : Slot),
          { time := "13:30", display := "1:30 PM" }],
        s.display = formatTimeDisplay s.time) :=
  ⟨⟨by decide, formatTimeDisplay_spec.1 0 5 (by decide) (by decide)⟩,
    ⟨by decide, formatTimeDisplay_spec.1 12 0 (by decide) (by decide)⟩,
    ⟨by decide, formatTimeDisplay_spec.1 9 30 (by decide) (by decide)⟩,
    ⟨by decide, formatTimeDisplay_spec.1 23 59 (by decide) (by decide)⟩,
    ⟨by decide, formatTimeDisplay_spec.2 3 ⟨.str "13:00", .str "14:00", .num 30⟩ [] _
      (by decide)⟩⟩

/-- C8 (slot count): for valid start and end times with start before end, a positive
duration `d` and an empty booked list, `generateTimeSlots` returns exactly
`(end - start) / d` slots (rounded down), the slot number `k` being at
`start + k * d`: the first at start, the last at `start + (n - 1) * d`; the text of the
first is the start string itself when that is written `HH:MM`. The window 09:00 to 18:00
with duration 30 gives 18 slots, from 09:00 (9:00 AM) to 17:30 (5:30 PM). -/
theorem generateTimeSlots_count (s e : String) (a b d : Nat)
    (hs : IsTimeOfDay s a) (he : IsTimeOfDay e b) (_hab : a < b) (hd : 0 < d) :
    (∃ slots : List Slot,
      (∀ fuel, (b - a) / d < fuel →
        generateTimeSlots fuel ⟨.str s, .str e, .num d⟩ [] = .returned slots) ∧
      slots.length = (b - a) / d ∧
      slots.map Slot.time =
        (List.range ((b - a) / d)).map (fun k => minutesToTime ((a + k * d : Nat) : Int)) ∧
      (0 < (b - a) / d →
        slots.head?.map Slot.time = some (minutesToTime (a : Int)) ∧
        slots.getLast?.map Slot.time =
          some (minutesToTime ((a + ((b - a) / d - 1) * d : Nat) : Int))) ∧
      (IsHHMM (.str s) → minutesToTime (a : Int) = s)) ∧
    ((generateTimeSlots 19 ⟨.str "09:00", .str "18:00", .num 30⟩ []).map List.length =
        .returned 18 ∧
      (generateTimeSlots 19 ⟨.str "09:00", .str "18:00", .num 30⟩ []).map List.head? =
        .returned (some { time := "09:00", display := "9:00 AM" }) ∧
      (generateTimeSlots 19 ⟨.str "09:00", .str "18:00", .num 30⟩ []).map List.getLast? =
        .returned (some { time := "17:30", display := "5:30 PM" })) := by
  refine ⟨⟨_, fun fuel hf => generateTimeSlots_eq s e a b d [] fuel hs he hd hf, ?_, ?_, ?_, ?_⟩,
    ⟨by decide, by decide, by decide⟩⟩
  · rw [length_expected_nil]; simp [slotTimes]
  · rw [length_expected_nil, slotTimes_eq_natCast]
    simp [List.map_map, Function.comp, slotAt]
  · intro hn
    obtain ⟨n, hn2⟩ := Nat.exists_eq_succ_of_ne_zero (Nat.pos_iff_ne_zero.1 hn)
    rw [length_expected_nil, slotTimes_eq_natCast, hn2]
    constructor
    · simp [List.range_succ_eq_map, slotAt]
    · simp [List.range_succ, slotAt]
  · rintro ⟨h, m, hh, hm, e1⟩
    injection e1 with e2
    have h1 := timeToMinutes_of_isTimeOfDay s a hs
    have h2 := timeToMinutes_of_isTimeOfDay s (h * 60 + m)
      ⟨h, m, hh, hm, rfl, Or.inl e2⟩
    have h3 : (a : Int) = ((h * 60 + m : Nat) : Int) := by rw [← h1, ← h2]
    rw [h3, minutesToTime_clock h m hh hm, e2]

theorem generateTimeSlots_count_witness :
    (∃ slots : List Slot,
      (∀ fuel, (600 - 540) / 25 < fuel →
        generateTimeSlots fuel ⟨.str "09:00", .str "10:00", .num (25 : Nat)⟩ [] =
          .returned slots) ∧
      slots.length = (600 - 540) / 25 ∧
      slots.map Slot.time =
        (List.range ((600 - 540) / 25)).map
          (fun k => minutesToTime ((540 + k * 25 : Nat) : Int)) ∧
      (0 < (600 - 540) / 25 →
        slots.head?.map Slot.time = some (minutesToTime ((540 : Nat) : Int)) ∧
        slots.getLast?.map Slot.time =
          some (minutesToTime ((540 + ((600 - 540) / 25 - 1) * 25 : Nat) : Int))) ∧
      (IsHHMM (.str "09:00") → minutesToTime ((540 : Nat) : Int) = "09:00")) ∧
    ((generateTimeSlots 19 ⟨.str "09:00", .str "18:00", .num 30⟩ []).map List.length =
        .returned 18 ∧
      (generateTimeSlots 19 ⟨.str "09:00", .str "18:00", .num 30⟩ []).map List.head? =
        .returned (some { time := "09:00", display := "9:00 AM" }) ∧
      (generateTimeSlots 19 ⟨.str "09:00", .str "18:00", .num 30⟩ []).map List.getLast? =
        .returned (some { time := "17:30", display := "5:30 PM" })) :=
  generateTimeSlots_count "09:00" "10:00" 540 600 25
    ⟨9, 0, by decide, by decide, rfl, Or.inl rfl⟩ ⟨10, 0, by decide, by decide, rfl, Or.inl rfl⟩
    (by decide) (by decide)

/-- C9 (subtracting booked slots): for every doctor record and booked list,
`generateTimeSlots doctor booked` is `generateTimeSlots doctor []` with exactly the slots
whose time is in the booked list removed, the order of the others kept; the window 09:00
to 10:00 with duration 30 and "09:00" booked gives the single slot 09:30 (9:30 AM). -/
theorem generateTimeSlots_subtracts_booked :
    (∀ (fuel : Nat) (doctor : Doctor) (booked : List JsVal),
      generateTimeSlots fuel doctor booked =
        (generateTimeSlots fuel doctor []).map
          (List.filter (fun s => !booked.contains (JsVal.str s.time)))) ∧
    generateTimeSlots 3 ⟨.str "09:00", .str "10:00", .num 30⟩ [.str "09:00"] =
      .returned [{ time := "09:30", display := "9:30 AM" }] :=
  ⟨generateTimeSlots_filter, by decide⟩

/-- C10 (defaulting): for every booked list, a record whose `working_hours_start` is
missing (`undefined`, `null` or empty) gives the result of the start "09:00", a missing
`working_hours_end` the result of the end "18:00", and a missing or non-numeric
`consultation_duration` (one that `parseInt` reads as `NaN`) the result of the duration
30. The defaulted field raises no error: with a missing start or end the function does
not throw when the other time is valid, and with all three defaulted it returns. -/
theorem generateTimeSlots_defaulting (fuel : Nat) (booked : List JsVal)
    (start stop duration : JsVal) :
    (IsMissing start →
      generateTimeSlots fuel ⟨start, stop, duration⟩ booked =
        generateTimeSlots fuel ⟨.str "09:00", stop, duration⟩ booked) ∧
    (IsMissing stop →
      generateTimeSlots fuel ⟨start, stop, duration⟩ booked =
        generateTimeSlots fuel ⟨start, .str "18:00", duration⟩ booked) ∧
    (IsMissing duration ∨ parseInt duration = none →
      generateTimeSlots fuel ⟨start, stop, duration⟩ booked =
        generateTimeSlots fuel ⟨start, stop, .num 30⟩ booked) ∧
    (IsMissing start → IsTimeText (jsOr stop (.str "18:00")) →
      ∀ msg, generateTimeSlots fuel ⟨start, stop, duration⟩ booked ≠ .thrown msg) ∧
    (IsMissing stop → IsTimeText (jsOr start (.str "09:00")) →
      ∀ msg, generateTimeSlots fuel ⟨start, stop, duration⟩ booked ≠ .thrown msg) ∧
    (IsMissing start → IsMissing stop → IsMissing duration ∨ parseInt duration = none →
      18 < fuel →
      ∃ slots, generateTimeSlots fuel ⟨start, stop, duration⟩ booked = .returned slots) := by
  have hdur : IsMissing duration ∨ parseInt duration = none → parseInt duration = none :=
    fun h => h.elim (parseInt_missing duration) id
  refine ⟨?_, ?_, ?_, ?_, ?_, ?_⟩
  · intro h
    exact generateTimeSlots_congr fuel _ _ booked (by rw [jsOr_missing _ _ h]; rfl) rfl rfl
  · intro h
    exact generateTimeSlots_congr fuel _ _ booked rfl (by rw [jsOr_missing _ _ h]; rfl) rfl
  · intro h
    refine generateTimeSlots_congr fuel _ _ booked rfl rfl ?_
    simp only [hdur h, parseInt_num]
    rfl
  · intro h ht msg
    refine generateTimeSlots_not_thrown fuel _ booked ?_ ((isValidTime_iff _).2 ht) msg
    simp only [jsOr_missing _ _ h]
    decide
  · intro h ht msg
    refine generateTimeSlots_not_thrown fuel _ booked ((isValidTime_iff _).2 ht) ?_ msg
    simp only [jsOr_missing _ _ h]
    decide
  · intro h1 h2 h3 hf
    have e1 := generateTimeSlots_congr fuel ⟨start, stop, duration⟩
      ⟨.str "09:00", .str "18:00", .num (30 : Nat)⟩ booked
      (by rw [jsOr_missing _ _ h1]; rfl) (by rw [jsOr_missing _ _ h2]; rfl)
      (by simp only [hdur h3, parseInt_num]; rfl)
    have e2 := generateTimeSlots_eq "09:00" "18:00" 540 1080 30 booked fuel
      ⟨9, 0, by decide, by decide, rfl, Or.inl rfl⟩
      ⟨18, 0, by decide, by decide, rfl, Or.inl rfl⟩ (by decide) (by simpa using hf)
    exact ⟨_, e1.trans e2⟩

theorem generateTimeSlots_defaulting_witness :
    generateTimeSlots 19 ⟨.null, .undefined, .str "abc"⟩ [.str "09:30"] =
        generateTimeSlots 19 ⟨.str "09:00", .undefined, .str "abc"⟩ [.str "09:30"] ∧
    generateTimeSlots 19 ⟨.null, .undefined, .str "abc"⟩ [.str "09:30"] =
        generateTimeSlots 19 ⟨.null, .str "18:00", .str "abc"⟩ [.str "09:30"] ∧
    generateTimeSlots 19 ⟨.null, .undefined, .str "abc"⟩ [.str "09:30"] =
        generateTimeSlots 19 ⟨.null, .undefined, .num 30⟩ [.str "09:30"] ∧
    (∃ slots, generateTimeSlots 19 ⟨.null, .undefined, .str "abc"⟩ [.str "09:30"] =
        .returned slots) :=
  have w := generateTimeSlots_defaulting 19 [.str "09:30"] .null .undefined (.str "abc")
  ⟨w.1 (Or.inr (Or.inl rfl)), w.2.1 (Or.inl rfl), w.2.2.1 (Or.inr (by decide)),
    w.2.2.2.2.2 (Or.inr (Or.inl rfl)) (Or.inl rfl) (Or.inr (by decide)) (by decide)⟩

/-- C11, the code at the failing input: with a negative `consultation_duration` and a
start before the end the loop of `generateTimeSlots` never ends, whatever the fuel (here
09:00 to 10:00 with duration -30, where duration 30 returns the slots 09:00 and 09:30);
a duration of zero does give the result of the duration 30. -/
theorem generateTimeSlots_negative_duration :
    (∀ fuel, generateTimeSlots fuel ⟨.str "09:00", .str "10:00", .num (-30)⟩ [] =
      .outOfFuel) ∧
    generateTimeSlots 3 ⟨.str "09:00", .str "10:00", .num 30⟩ [] =
      .returned [{ time := "09:00", display := "9:00 AM" },
        { time := "09:30", display := "9:30 AM" }] ∧
    (∀ (s e : String) (a b : Nat) (d : Int) (booked : List JsVal) (fuel : Nat),
      IsTimeOfDay s a → IsTimeOfDay e b → a < b → d < 0 →
        generateTimeSlots fuel ⟨.str s, .str e, .num d⟩ booked = .outOfFuel) ∧
    (∀ (fuel : Nat) (start stop : JsVal) (booked : List JsVal),
      generateTimeSlots fuel ⟨start, stop, .num 0⟩ booked =
        generateTimeSlots fuel ⟨start, stop, .num 30⟩ booked) := by
  refine ⟨fun fuel => ?_, by decide, ?_, ?_⟩
  · exact generateTimeSlots_negative "09:00" "10:00" 540 600 (-30) [] fuel
      ⟨9, 0, by decide, by decide, rfl, Or.inl rfl⟩
      ⟨10, 0, by decide, by decide, rfl, Or.inl rfl⟩ (by decide) (by decide)
  · intro s e a b d booked fuel hs he hab hd
    exact generateTimeSlots_negative s e a b d booked fuel hs he hab hd
  · intro fuel start stop booked
    refine generateTimeSlots_congr fuel _ _ booked rfl rfl ?_
    simp only [parseInt_num]
    rfl

/-- C12 (conflict guard): for every appointment store and every booking request whose
required fields are present, `attemptBook` answers 409 (slot already booked) if and
only if the store holds an appointment with the same `doctor_id`, `appointment_date` and
`appointment_time` whose status is confirmed or pending; when it does, the store is left
unchanged. -/
theorem attemptBook_conflict_iff (now : String) (store : List Appointment)
    (req : BookingRequest) (h : HasRequiredFields req) :
    ((attemptBook now store req).1.code = 409 ↔
      HasActiveAppointment store req.doctor_id req.appointment_date req.appointment_time) ∧
    ((attemptBook now store req).1.code = 409 → (attemptBook now store req).2 = store) := by
  by_cases hc : HasActiveAppointment store req.doctor_id req.appointment_date
      req.appointment_time
  · rw [attemptBook_conflict now store req h hc]
    exact ⟨⟨fun _ => hc, fun _ => rfl⟩, fun _ => rfl⟩
  · rw [attemptBook_free now store req h hc]
    have hne : (201 : Nat) ≠ 409 := by decide
    exact ⟨⟨fun e => absurd e hne, fun e => absurd e hc⟩, fun e => absurd e hne⟩

theorem attemptBook_conflict_iff_witness :
    HasActiveAppointment [insertedRow "t1" [] sampleRequest] sampleRequest.doctor_id
        sampleRequest.appointment_date sampleRequest.appointment_time ∧
      (attemptBook "t2" [insertedRow "t1" [] sampleRequest] sampleRequest).1.code = 409 ∧
      (attemptBook "t2" [insertedRow "t1" [] sampleRequest] sampleRequest).2 =
        [insertedRow "t1" [] sampleRequest] ∧
      (attemptBook "t2" [] sampleRequest).1.code ≠ 409 :=
  have w := attemptBook_conflict_iff "t2" [insertedRow "t1" [] sampleRequest] sampleRequest
    sampleRequest_required
  have w0 := attemptBook_conflict_iff "t2" [] sampleRequest sampleRequest_required
  have hact : HasActiveAppointment [insertedRow "t1" [] sampleRequest]
      sampleRequest.doctor_id sampleRequest.appointment_date
      sampleRequest.appointment_time :=
    ⟨_, List.mem_singleton.2 rfl, rfl, rfl, rfl, Or.inl rfl⟩
  ⟨hact, w.1.2 hact, w.2 (w.1.2 hact),
    fun e => by obtain ⟨a, ha, -⟩ := w0.1.1 e; cases ha⟩

/-- C13 (successful booking): when the required fields are present and the store holds
no active appointment for the doctor, date and time of the request, `attemptBook`
answers 201 and the store afterwards is the previous store followed by one new row, with
a fresh id, the doctor, patient fields, date and time of the request, its reason and
notes (`NULL` when the request has none) and the status confirmed. -/
theorem attemptBook_success (now : String) (store : List Appointment) (req : BookingRequest)
    (h : HasRequiredFields req)
    (hfree : ¬ HasActiveAppointment store req.doctor_id req.appointment_date
      req.appointment_time) :
    ∃ row : Appointment,
      attemptBook now store req = (⟨201, none⟩, store ++ [row]) ∧
      row.doctor_id = req.doctor_id ∧ row.patient_name = req.patient_name ∧
      row.patient_email = req.patient_email ∧ row.patient_phone = req.patient_phone ∧
      row.appointment_date = req.appointment_date ∧
      row.appointment_time = req.appointment_time ∧
      row.reason = sqlBind req.reason ∧ row.notes = sqlBind req.notes ∧
      row.status = "confirmed" ∧ (∀ a ∈ store, a.id ≠ row.id) := by
  obtain ⟨f1, f2, f3, f4, f5, f6⟩ := insertedRow_fields now store req h
  refine ⟨insertedRow now store req, attemptBook_free now store req h hfree,
    f1, f2, f3, f4, f5, f6, rfl, rfl, rfl, ?_⟩
  intro a ha e
  have := id_lt_nextId store a ha
  rw [e] at this
  exact absurd this (by simp [insertedRow])

theorem attemptBook_success_witness :
    ∃ row : Appointment,
      attemptBook "t1" [] sampleRequest = (⟨201, none⟩, [] ++ [row]) ∧
      row.doctor_id = sampleRequest.doctor_id ∧
      row.patient_name = sampleRequest.patient_name ∧
      row.patient_email = sampleRequest.patient_email ∧
      row.patient_phone = sampleRequest.patient_phone ∧
      row.appointment_date = sampleRequest.appointment_date ∧
      row.appointment_time = sampleRequest.appointment_time ∧
      row.reason = sqlBind sampleRequest.reason ∧ row.notes = sqlBind sampleRequest.notes ∧
      row.status = "confirmed" ∧ (∀ a ∈ ([] : List Appointment), a.id ≠ row.id) :=
  attemptBook_success "t1" [] sampleRequest sampleRequest_required
    (fun ⟨_, ha, _⟩ => by cases ha)

/-- C14 (conflict idempotence): for every store, after a first attempt to book a slot
with a complete request, a second attempt for the same `doctor_id`, date and time with a
complete request answers 409 (slot already booked) and adds no appointment. -/
theorem attemptBook_twice (now1 now2 : String) (store : List Appointment)
    (req1 req2 : BookingRequest) (h1 : HasRequiredFields req1) (h2 : HasRequiredFields req2)
    (hd : req2.doctor_id = req1.doctor_id)
    (hdate : req2.appointment_date = req1.appointment_date)
    (htime : req2.appointment_time = req1.appointment_time) :
    attemptBook now2 (attemptBook now1 store req1).2 req2 =
      (⟨409, some
        "Lo sentimos, ese horario ya está reservado. Por favor elige otro horario."⟩,
        (attemptBook now1 store req1).2) := by
  refine attemptBook_conflict now2 _ req2 h2 ?_
  rw [hd, hdate, htime]
  by_cases hc : HasActiveAppointment store req1.doctor_id req1.appointment_date
      req1.appointment_time
  · rw [attemptBook_conflict now1 store req1 h1 hc]
    exact hc
  · rw [attemptBook_free now1 store req1 h1 hc]
    obtain ⟨f1, -, -, -, f5, f6⟩ := insertedRow_fields now1 store req1 h1
    exact ⟨insertedRow now1 store req1, by simp, f1, f5, f6, Or.inl rfl⟩

theorem attemptBook_twice_witness :
    (attemptBook "t1" [] sampleRequest).1.code = 201 ∧
      attemptBook "t2" (attemptBook "t1" [] sampleRequest).2 sampleRequest =
        (⟨409, some
          "Lo sentimos, ese horario ya está reservado. Por favor elige otro horario."⟩,
          (attemptBook "t1" [] sampleRequest).2) :=
  ⟨by decide, attemptBook_twice "t1" "t2" [] sampleRequest sampleRequest
    sampleRequest_required sampleRequest_required rfl rfl rfl⟩

/-- C15 (no double booking by booking): in every store reached from the empty store by
a sequence of `attemptBook` calls run one after the other, no two appointments with
status confirmed or pending share the `doctor_id`, the date and the time. -/
theorem noDoubleBooking_of_bookings (requests : List (String × BookingRequest)) :
    NoDoubleBooking
      (runOperations [] (requests.map fun r => Operation.book r.1 r.2)) := by
  refine (runOperations_invariant _ ?_ [] List.nodup_nil List.Pairwise.nil).2
  intro op hop now appointmentId status e
  obtain ⟨r, -, hr⟩ := List.mem_map.1 hop
  rw [e] at hr
  cases hr

/-- C16, the claim as stated fails: book a slot (appointment 1), cancel appointment 1,
book the same slot again (appointment 2), then set appointment 1 back to confirmed. Each
call succeeds, the predicate holds before the last call, and after it the two confirmed
appointments 1 and 2 share the doctor, the date and the time. -/
theorem setStatus_reactivation_double_books :
    NoDoubleBooking (runOperations []
      [.book "t1" sampleRequest, .status "t2" 1 (.str "cancelled"),
        .book "t3" sampleRequest]) ∧
    (setStatus "t4" (runOperations []
      [.book "t1" sampleRequest, .status "t2" 1 (.str "cancelled"),
        .book "t3" sampleRequest]) 1 (.str "confirmed")).1 = ⟨200, none⟩ ∧
    ¬ NoDoubleBooking (runOperations []
      [.book "t1" sampleRequest, .status "t2" 1 (.str "cancelled"),
        .book "t3" sampleRequest, .status "t4" 1 (.str "confirmed")]) := by
  refine ⟨?_, by decide, ?_⟩
  · refine (runOperations_invariant _ ?_ [] List.nodup_nil List.Pairwise.nil).2
    intro op hop now appointmentId status e
    subst e
    simp only [List.mem_cons, List.mem_singleton, List.not_mem_nil, or_false] at hop
    rcases hop with h | h | h
    · cases h
    · injection h with _ _ h3
      subst h3
      exact ⟨by decide, by decide⟩
    · cases h
  · have e : runOperations []
        [.book "t1" sampleRequest, .status "t2" 1 (.str "cancelled"),
          .book "t3" sampleRequest, .status "t4" 1 (.str "confirmed")] =
        [{ insertedRow "t1" [] sampleRequest with updated_at := "t4" },
          { insertedRow "t3" [] sampleRequest with id := 2 }] := by decide
    rw [e]
    intro h
    unfold NoDoubleBooking at h
    rw [List.pairwise_cons] at h
    exact h.1 _ (List.mem_singleton.2 rfl) ⟨by decide, by decide, rfl, rfl, rfl⟩

/-- C16 (no double booking under the operations), amended: the predicate 'no two active
appointments share the doctor, date and time' is preserved by `attemptBook`, and by
`setStatus` unless the new status is confirmed or pending and another active
appointment has the doctor, date and time of the appointment whose status is set (the
ids of the store being pairwise different, as the primary key makes them); so it holds
in every state reached from the empty store by bookings and by status changes to a
status other than confirmed and pending. -/
theorem noDoubleBooking_preserved :
    (∀ (now : String) (store : List Appointment) (req : BookingRequest),
      NoDoubleBooking store → NoDoubleBooking (attemptBook now store req).2) ∧
    (∀ (now : String) (store : List Appointment) (appointmentId : Nat) (status : JsVal),
      UniqueIds store → NoDoubleBooking store →
      ((status ≠ .str "confirmed" ∧ status ≠ .str "pending") ∨
        ∀ a ∈ store, a.id = appointmentId → ∀ b ∈ store, b.id ≠ appointmentId →
          isActiveStatus b.status = true → ¬ SameSlot a b) →
      NoDoubleBooking (setStatus now store appointmentId status).2) ∧
    (∀ ops : List Operation,
      (∀ op ∈ ops, ∀ now appointmentId status,
        op = Operation.status now appointmentId status →
          status ≠ .str "confirmed" ∧ status ≠ .str "pending") →
      UniqueIds (runOperations [] ops) ∧ NoDoubleBooking (runOperations [] ops)) :=
  ⟨attemptBook_noDoubleBooking, setStatus_noDoubleBooking,
    fun ops hops => runOperations_invariant ops hops [] List.nodup_nil List.Pairwise.nil⟩

theorem noDoubleBooking_preserved_witness :
    NoDoubleBooking (attemptBook "t2" (attemptBook "t1" [] sampleRequest).2
        sampleRequest).2 ∧
      NoDoubleBooking (setStatus "t2" (attemptBook "t1" [] sampleRequest).2 1
        (.str "cancelled")).2 ∧
      NoDoubleBooking (setStatus "t2" (attemptBook "t1" [] sampleRequest).2 1
        (.str "pending")).2 :=
  have h0 : NoDoubleBooking (attemptBook "t1" [] sampleRequest).2 :=
    noDoubleBooking_preserved.1 "t1" [] sampleRequest List.Pairwise.nil
  have hu : UniqueIds (attemptBook "t1" [] sampleRequest).2 :=
    attemptBook_uniqueIds "t1" [] sampleRequest List.nodup_nil
  ⟨noDoubleBooking_preserved.1 "t2" _ sampleRequest h0,
    noDoubleBooking_preserved.2.1 "t2" _ 1 (.str "cancelled") hu h0
      (Or.inl ⟨by decide, by decide⟩),
    noDoubleBooking_preserved.2.1 "t2" _ 1 (.str "pending") hu h0
      (Or.inr (by
        intro a ha ea b hb eb
        have hb2 : b ∈ [insertedRow "t1" [] sampleRequest] := hb
        rw [List.mem_singleton] at hb2
        subst hb2
        exact absurd rfl eb))⟩

/-- C17 (required fields): `attemptBook` answers 400 and leaves the store unchanged
whenever one of `doctor_id`, `patient_name`, `patient_email`, `patient_phone`,
`appointment_date`, `appointment_time` is missing or empty, whatever the store, so
also when the slot is already booked (the answer is then not 409); `reason` and `notes`
are optional: a request with the six fields present is never answered 400, whatever its
reason and notes. -/
theorem attemptBook_required_fields (now : String) (store : List Appointment)
    (req : BookingRequest) :
    (IsMissing req.doctor_id ∨ IsMissing req.patient_name ∨ IsMissing req.patient_email ∨
        IsMissing req.patient_phone ∨ IsMissing req.appointment_date ∨
        IsMissing req.appointment_time →
      (attemptBook now store req).1.code = 400 ∧ (attemptBook now store req).2 = store) ∧
    (HasRequiredFields req →
      ∀ reason notes : JsVal,
        (attemptBook now store { req with reason := reason, notes := notes }).1.code ≠ 400) := by
  constructor
  · intro hm
    have hn : ¬ HasRequiredFields req := by
      rintro ⟨h1, h2, h3, h4, h5, h6⟩
      rcases hm with h | h | h | h | h | h <;>
        · have := truthy_of_missing _ h
          simp_all
    rw [attemptBook_missing now store req hn]
    exact ⟨rfl, rfl⟩
  · intro h reason notes
    have h2 : HasRequiredFields { req with reason := reason, notes := notes } := h
    by_cases hc : HasActiveAppointment store req.doctor_id req.appointment_date
        req.appointment_time
    · rw [attemptBook_conflict now store _ h2 hc]
      exact (by decide : (409 : Nat) ≠ 400)
    · rw [attemptBook_free now store _ h2 hc]
      exact (by decide : (201 : Nat) ≠ 400)

theorem attemptBook_required_fields_witness :
    ((attemptBook "t2" [insertedRow "t1" [] sampleRequest]
        { sampleRequest with patient_phone := .str "" }).1.code = 400 ∧
      (attemptBook "t2" [insertedRow "t1" [] sampleRequest]
        { sampleRequest with patient_phone := .str "" }).2 =
          [insertedRow "t1" [] sampleRequest]) ∧
    (attemptBook "t2" []
      { sampleRequest with reason := .null, notes := .str "" }).1.code ≠ 400 :=
  ⟨(attemptBook_required_fields "t2" [insertedRow "t1" [] sampleRequest]
      { sampleRequest with patient_phone := .str "" }).1
      (Or.inr (Or.inr (Or.inr (Or.inl (Or.inr (Or.inr rfl)))))),
    (attemptBook_required_fields "t2" [] sampleRequest).2 sampleRequest_required
      .null (.str "")⟩

/-- C18 (invalid status): for every appointment id, stored or not, and every new status
that is not one of pending, confirmed, cancelled, completed, no_show (a missing or empty
status included), `setStatus` answers 400 and leaves the store unchanged; so does
`setStatus 42 "bogus"`. -/
theorem setStatus_invalid (now : String) (store : List Appointment) (appointmentId : Nat)
    (status : JsVal) (h : ∀ s ∈ validStatuses, status ≠ .str s) :
    (setStatus now store appointmentId status).1.code = 400 ∧
      (setStatus now store appointmentId status).2 = store :=
  setStatus_invalid_eq now store appointmentId status h

theorem setStatus_invalid_witness :
    ((setStatus "t2" [{ insertedRow "t1" [] sampleRequest with id := 42 }] 42
        (.str "bogus")).1.code = 400 ∧
      (setStatus "t2" [{ insertedRow "t1" [] sampleRequest with id := 42 }] 42
        (.str "bogus")).2 = [{ insertedRow "t1" [] sampleRequest with id := 42 }]) ∧
    ((setStatus "t2" [] 42 .undefined).1.code = 400 ∧
      (setStatus "t2" [] 42 .undefined).2 = []) :=
  ⟨setStatus_invalid "t2" _ 42 (.str "bogus") (by decide),
    setStatus_invalid "t2" [] 42 .undefined (by decide)⟩

/-- C19 (unknown appointment): for every new status among the five valid values and
every id that no stored appointment has, `setStatus` answers 404 (appointment not
found) and leaves the store unchanged; so does `setStatus 99999 "completed"` on a store
without the id 99999. -/
theorem setStatus_unknown (now : String) (store : List Appointment) (appointmentId : Nat)
    (s : String) (hs : s ∈ validStatuses) (hid : ∀ a ∈ store, a.id ≠ appointmentId) :
    setStatus now store appointmentId (.str s) =
      (⟨404, some "Cita no encontrada"⟩, store) :=
  setStatus_unknown_eq now store appointmentId s hs hid

theorem setStatus_unknown_witness :
    setStatus "t2" [insertedRow "t1" [] sampleRequest] 99999 (.str "completed") =
      (⟨404, some "Cita no encontrada"⟩, [insertedRow "t1" [] sampleRequest]) :=
  setStatus_unknown "t2" [insertedRow "t1" [] sampleRequest] 99999 "completed" (by decide)
    (by decide)

/-- C20 (unrestricted transitions): for every stored appointment, whatever its current
status, and every new status among the five valid values, `setStatus` answers 200 and
the appointment is still stored, with the new status; no transition is rejected, neither
completed to pending nor a status to itself. -/
theorem setStatus_any_transition (now : String) (store : List Appointment)
    (appointmentId : Nat) (s : String) (hs : s ∈ validStatuses)
    (hid : ∃ a ∈ store, a.id = appointmentId) :
    (setStatus now store appointmentId (.str s)).1 = ⟨200, none⟩ ∧
      (∃ a ∈ (setStatus now store appointmentId (.str s)).2, a.id = appointmentId) ∧
      ∀ a ∈ (setStatus now store appointmentId (.str s)).2,
        a.id = appointmentId → a.status = s := by
  rw [setStatus_known_eq now store appointmentId s hs hid]
  refine ⟨rfl, ?_, ?_⟩
  · obtain ⟨a, ha, e⟩ := hid
    exact ⟨withStatus now appointmentId s a, List.mem_map_of_mem _ ha,
      (withStatus_id now appointmentId s a).trans e⟩
  · intro a ha e
    obtain ⟨b, -, rfl⟩ := List.mem_map.1 ha
    rw [withStatus_id] at e
    rw [withStatus_status, if_pos e]

theorem setStatus_any_transition_witness :
    ((setStatus "t2" [{ insertedRow "t1" [] sampleRequest with status := "completed" }] 1
        (.str "pending")).1 = ⟨200, none⟩ ∧
      (∃ a ∈ (setStatus "t2"
          [{ insertedRow "t1" [] sampleRequest with status := "completed" }] 1
          (.str "pending")).2, a.id = 1) ∧
      ∀ a ∈ (setStatus "t2"
          [{ insertedRow "t1" [] sampleRequest with status := "completed" }] 1
          (.str "pending")).2, a.id = 1 → a.status = "pending") ∧
    (setStatus "t2" [insertedRow "t1" [] sampleRequest] 1 (.str "confirmed")).1 =
      ⟨200, none⟩ :=
  ⟨setStatus_any_transition "t2" _ 1 "pending" (by decide)
      ⟨_, List.mem_singleton.2 rfl, rfl⟩,
    (setStatus_any_transition "t2" [insertedRow "t1" [] sampleRequest] 1 "confirmed"
      (by decide) ⟨_, List.mem_singleton.2 rfl, rfl⟩).1⟩

/-- C21 (availability request errors): the availability route answers 400 whenever the
date is missing or empty (and whenever it is falsy), whatever the doctor id and the
tables; with a date present it answers 404 whenever no active doctor has that id, that
is when no doctor has the id or the doctor with the id is not active. Both answers are
given for every fuel, zero included: they carry no slot and the slot loop is not run. -/
theorem availability_errors (fuel : Nat) (db : Database) (doctorId : Nat) (date : JsVal) :
    ((IsMissing date ∨ truthy date = false) →
      availability fuel db doctorId date =
        .returned (.failure ⟨400, some "La fecha es requerida"⟩)) ∧
    (truthy date = true →
      (∀ d ∈ db.doctors, d.id = doctorId → d.is_active ≠ .num 1) →
      availability fuel db doctorId date =
        .returned (.failure ⟨404, some "Doctor no encontrado"⟩)) := by
  constructor
  · intro h
    have hf : truthy date = false := h.elim (truthy_of_missing date) id
    simp [availability, hf]
  · intro ht hnone
    unfold availability
    rw [ht, find_activeDoctor_none db doctorId hnone]
    rfl

/-- C22 (availability result): for an active doctor and a date, the availability route
answers with `booked_slots` the `appointment_time` values, in the order of the table, of
the stored appointments with that `doctor_id`, that `appointment_date` and the status
confirmed or pending, and with `available_slots` the list `generateTimeSlots` returns for
the doctor and `booked_slots`, whenever it returns one; a success answer is always of
that form. The answer is the same as on the table without the appointments of other
doctors, of other dates or with another status. -/
theorem availability_result (fuel : Nat) (db : Database) (doctorId : Nat) (date : JsVal)
    (doctor : DoctorRow) (hdate : truthy date = true)
    (hdoc : IsActiveDoctor db doctorId doctor) :
    (∀ slots, generateTimeSlots fuel doctor.hours
        ((db.appointments.filter fun a => decide (IsBookedOn doctorId date a)).map
          Appointment.appointment_time) = .returned slots →
      availability fuel db doctorId date =
        .returned (.success doctor slots
          ((db.appointments.filter fun a => decide (IsBookedOn doctorId date a)).map
            Appointment.appointment_time))) ∧
    (∀ d slots booked,
      availability fuel db doctorId date = .returned (.success d slots booked) →
        d = doctor ∧
        booked = (db.appointments.filter fun a => decide (IsBookedOn doctorId date a)).map
          Appointment.appointment_time ∧
        generateTimeSlots fuel doctor.hours booked = .returned slots) ∧
    availability fuel
        { db with
          appointments := db.appointments.filter fun a => decide (IsBookedOn doctorId date a) }
        doctorId date =
      availability fuel db doctorId date := by
  refine ⟨?_, ?_, ?_⟩
  · intro slots h
    rw [← filter_bookedOn doctorId date _ hdate] at h ⊢
    exact availability_returned fuel db doctorId date doctor hdate hdoc slots h
  · intro d slots booked h
    rw [← filter_bookedOn doctorId date _ hdate]
    exact availability_success fuel db doctorId date doctor d hdate hdoc slots booked h
  · have h2 := availability_of_activeDoctor fuel
      { db with
        appointments := db.appointments.filter fun a => decide (IsBookedOn doctorId date a) }
      doctorId date doctor hdate hdoc
    rw [h2, availability_of_activeDoctor fuel db doctorId date doctor hdate hdoc]
    simp only [filter_bookedOn doctorId date _ hdate, List.filter_filter, Bool.and_self]

theorem availability_result_witness :
    availability 3 sampleDatabase 1 (.str "2024-06-01") =
        .returned (.success sampleDoctor
          [{ time := "09:00", display := "9:00 AM" }, { time := "09:30", display := "9:30 AM" }]
          []) ∧
      availability 3
          { sampleDatabase with appointments := (attemptBook "t1" [] sampleRequest).2 }
          1 (.str "2024-06-01") =
        .returned (.success sampleDoctor [{ time := "09:30", display := "9:30 AM" }]
          [.str "09:00"]) :=
  have hdoc : IsActiveDoctor sampleDatabase 1 sampleDoctor :=
    ⟨List.mem_singleton.2 rfl, rfl, rfl, fun d hd _ => List.mem_singleton.1 hd⟩
  ⟨(availability_result 3 sampleDatabase 1 (.str "2024-06-01") sampleDoctor rfl hdoc).1 _
      (by decide),
    (availability_result 3
      { sampleDatabase with appointments := (attemptBook "t1" [] sampleRequest).2 } 1
      (.str "2024-06-01") sampleDoctor rfl hdoc).1 _ (by decide)⟩

/-- C23, the code at the failing input: when doctor 1 has no specialty (`specialty_id`
is `NULL`), the sample request for doctor 1 passes the required-field check and the
conflict check and is answered 201, the appointment is stored, and the answer carries
the new id 1 but no appointment record, where the claim has the persisted record with
the doctor name and the specialty name. For the same doctor with the specialty 2 the same
request is answered with the record; and every 201 carries the record of the new
appointment whenever the requested doctor is stored with a stored specialty. -/
theorem postAppointment_without_record :
    (HasRequiredFields sampleRequest ∧
      ¬ HasActiveAppointment databaseWithoutSpecialty.appointments sampleRequest.doctor_id
        sampleRequest.appointment_date sampleRequest.appointment_time ∧
      postAppointment "t1" databaseWithoutSpecialty sampleRequest =
        (⟨201, none⟩, some ⟨1, none⟩,
          { databaseWithoutSpecialty with
            appointments := [insertedRow "t1" [] sampleRequest] })) ∧
    postAppointment "t1" sampleDatabase sampleRequest =
      (⟨201, none⟩,
        some ⟨1, some ⟨insertedRow "t1" [] sampleRequest, sampleDoctor, sampleSpecialty⟩⟩,
        { sampleDatabase with appointments := [insertedRow "t1" [] sampleRequest] }) ∧
    (∀ (now : String) (db : Database) (req : BookingRequest),
      (postAppointment now db req).1.code = 201 →
      (∃ d ∈ db.doctors, req.doctor_id = .num d.id ∧
        ∃ s ∈ db.specialties, d.specialty_id = .num s.id) →
      ∃ r : JoinedRow,
        (postAppointment now db req).2.1 =
          some ⟨(insertedRow now db.appointments req).id, some r⟩ ∧
        r.appointment = insertedRow now db.appointments req ∧
        r.doctor ∈ db.doctors ∧ req.doctor_id = .num r.doctor.id ∧
        r.specialty ∈ db.specialties ∧ r.doctor.specialty_id = .num r.specialty.id) := by
  refine ⟨⟨sampleRequest_required, (fun ⟨_, ha, _⟩ => by cases ha), by decide⟩, by decide, ?_⟩
  intro now db req h hdoc
  obtain ⟨record, heq, hrec, hsome⟩ := postAppointment_joined now db req h
  obtain ⟨r, hr⟩ := Option.isSome_iff_exists.1 (hsome hdoc)
  subst hr
  refine ⟨r, ?_, hrec r rfl⟩
  rw [heq]

/-- C24 (a status change touches one row only): when `setStatus` answers 200 for the
appointment id, the table afterwards has the same number of rows, row by row in the same
order every row with another id is unchanged and a row with that id is unchanged in every
field other than `status` and `updated_at`; when the ids of the table are pairwise
different, exactly one row has that id. -/
theorem setStatus_touches_one_row (now : String) (store : List Appointment)
    (appointmentId : Nat) (status : JsVal)
    (h : (setStatus now store appointmentId status).1.code = 200) :
    (setStatus now store appointmentId status).2.length = store.length ∧
    List.Forall₂
      (fun a b =>
        (a.id ≠ appointmentId → b = a) ∧
        (a.id = appointmentId →
          b = { a with status := b.status, updated_at := b.updated_at }))
      store (setStatus now store appointmentId status).2 ∧
    (UniqueIds store →
      (store.filter fun a => decide (a.id = appointmentId)).length = 1) := by
  obtain ⟨s, -, -, ⟨a, ha, rfl⟩, heq⟩ := setStatus_ok now store appointmentId status h
  rw [heq]
  refine ⟨List.length_map _ _, ?_, filter_id_length store a ha⟩
  rw [List.forall₂_map_right_iff, List.forall₂_same]
  intro x _
  constructor
  · intro hx; simp [withStatus, hx]
  · intro hx; simp [withStatus, hx]

theorem setStatus_touches_one_row_witness :
    (setStatus "t2" [insertedRow "t1" [] sampleRequest] 1 (.str "cancelled")).1.code = 200 ∧
      (setStatus "t2" [insertedRow "t1" [] sampleRequest] 1 (.str "cancelled")).2.length =
        [insertedRow "t1" [] sampleRequest].length ∧
      List.Forall₂
        (fun a b =>
          (a.id ≠ 1 → b = a) ∧
          (a.id = 1 → b = { a with status := b.status, updated_at := b.updated_at }))
        [insertedRow "t1" [] sampleRequest]
        (setStatus "t2" [insertedRow "t1" [] sampleRequest] 1 (.str "cancelled")).2 ∧
      (UniqueIds [insertedRow "t1" [] sampleRequest] →
        ([insertedRow "t1" [] sampleRequest].filter fun a => decide (a.id = 1)).length = 1) :=
  ⟨by decide,
    setStatus_touches_one_row "t2" [insertedRow "t1" [] sampleRequest] 1 (.str "cancelled")
      (by decide)⟩

/-- C25 (no silent swallowing of format errors): `timeToMinutes` returns 540 exactly in
place of a failed parse. For every doctor record and booked list, if a start or an end
that is given (a field that is not missing, a missing one being replaced by its default
first) cannot be parsed by `timeToMinutes` into numeric hours and minutes,
`generateTimeSlots` raises the invalid-format error, and so it does if the start or the
end it works with after the defaulting cannot be parsed; whenever it does not raise, both
calls of `timeToMinutes` parse their argument, so the fallback branch is not taken and
the result is computed from the parsed times. -/
theorem generateTimeSlots_no_fallback (fuel : Nat) (doctor : Doctor) (booked : List JsVal) :
    (∀ time, timeToMinutes time = (timeToMinutesTry time).getD 540) ∧
    (((truthy doctor.working_hours_start = true ∧
          timeToMinutesTry (toStr doctor.working_hours_start) = none) ∨
        (truthy doctor.working_hours_end = true ∧
          timeToMinutesTry (toStr doctor.working_hours_end) = none)) →
      generateTimeSlots fuel doctor booked = .thrown "Formato de hora inválido") ∧
    ((timeToMinutesTry (toStr (jsOr doctor.working_hours_start (.str "09:00"))) = none ∨
        timeToMinutesTry (toStr (jsOr doctor.working_hours_end (.str "18:00"))) = none) →
      generateTimeSlots fuel doctor booked = .thrown "Formato de hora inválido") ∧
    (generateTimeSlots fuel doctor booked ≠ .thrown "Formato de hora inválido" →
      ∃ a b : Nat,
        timeToMinutesTry (toStr (jsOr doctor.working_hours_start (.str "09:00"))) =
          some (a : Int) ∧
        timeToMinutesTry (toStr (jsOr doctor.working_hours_end (.str "18:00"))) =
          some (b : Int) ∧
        generateTimeSlots fuel doctor booked =
          if (a : Int) ≥ b then .returned []
          else slotLoop booked (numOr (parseInt doctor.consultation_duration) 30) b fuel a
            []) := by
  have key : ∀ v : JsVal, timeToMinutesTry (toStr v) = none → isValidTime v = false := by
    intro v hv
    by_contra hne
    rw [Bool.not_eq_false] at hne
    obtain ⟨t, ht⟩ := timeToMinutesTry_of_isValidTime v hne
    rw [ht] at hv
    cases hv
  refine ⟨timeToMinutes_eq_try, ?_, ?_, ?_⟩
  · intro h
    refine generateTimeSlots_thrown_of_invalid fuel doctor booked (h.imp ?_ ?_)
    · rintro ⟨ht, hn⟩
      rw [jsOr_of_truthy _ _ ht]
      exact key _ hn
    · rintro ⟨ht, hn⟩
      rw [jsOr_of_truthy _ _ ht]
      exact key _ hn
  · intro h
    exact generateTimeSlots_thrown_of_invalid fuel doctor booked (h.imp (key _) (key _))
  · intro h
    have hs : isValidTime (jsOr doctor.working_hours_start (.str "09:00")) = true := by
      by_contra hne
      rw [Bool.not_eq_true] at hne
      exact h (generateTimeSlots_thrown_of_invalid fuel doctor booked (Or.inl hne))
    have he : isValidTime (jsOr doctor.working_hours_end (.str "18:00")) = true := by
      by_contra hne
      rw [Bool.not_eq_true] at hne
      exact h (generateTimeSlots_thrown_of_invalid fuel doctor booked (Or.inr hne))
    obtain ⟨a, ha⟩ := timeToMinutesTry_of_isValidTime _ hs
    obtain ⟨b, hb⟩ := timeToMinutesTry_of_isValidTime _ he
    refine ⟨a, b, ha, hb, ?_⟩
    have ha2 := timeToMinutes_eq_try (toStr (jsOr doctor.working_hours_start (.str "09:00")))
    have hb2 := timeToMinutes_eq_try (toStr (jsOr doctor.working_hours_end (.str "18:00")))
    rw [ha] at ha2
    rw [hb] at hb2
    simp only [Option.getD_some] at ha2 hb2
    unfold generateTimeSlots
    simp only [hs, he, ha2, hb2, Bool.not_true, Bool.or_self, Bool.false_eq_true, if_false]

/-- C26, the code at the failing input: when doctor 1 has no specialty, the sample
request is answered 201 by `POST /api/appointments` and its appointment is stored with
the patient email of the request, yet the search with that email and no phone answers
with no appointment at all, where the claim has it return that appointment. For the same
doctor with the specialty 2 the search returns the appointment; the search answers 400
when neither parameter is given; and on the appointments that have a stored doctor with
a stored specialty the search with only the email selects those whose `patient_email`
equals it. -/
theorem patientAppointments_misses_appointment :
    ((postAppointment "t1" databaseWithoutSpecialty sampleRequest).1.code = 201 ∧
      (postAppointment "t1" databaseWithoutSpecialty sampleRequest).2.2.appointments =
        [insertedRow "t1" [] sampleRequest] ∧
      (insertedRow "t1" [] sampleRequest).patient_email = .str "ana@example.org" ∧
      patientAppointments (postAppointment "t1" databaseWithoutSpecialty sampleRequest).2.2
        (.str "ana@example.org") .undefined = .success []) ∧
    patientAppointments (postAppointment "t1" sampleDatabase sampleRequest).2.2
        (.str "ana@example.org") .undefined =
      .success [⟨insertedRow "t1" [] sampleRequest, sampleDoctor, sampleSpecialty⟩] ∧
    (∀ (db : Database) (email phone : JsVal), truthy email = false → truthy phone = false →
      patientAppointments db email phone =
        .failure ⟨400, some "Se requiere email o teléfono para buscar citas"⟩) ∧
    (∀ (db : Database) (ops : List Operation) (email phone : JsVal),
      db.appointments = runOperations [] ops → truthy email = true → truthy phone = false →
      ∃ rows, patientAppointments db email phone = .success rows ∧
        rows.Perm ((joinedRows db).filter fun r =>
          decide (r.appointment.patient_email = email))) := by
  refine ⟨by decide, by decide, ?_, ?_⟩
  · intro db email phone he hp
    simp [patientAppointments, he, hp]
  · intro db ops email phone hposts he hp
    exact (patientAppointments_joined db ops email phone hposts).2.2.1 he hp

/-- C27 (booking updates availability): for every database, active doctor, date and time
`t`, when the availability route answers with the available slots `avail` and
`attemptBook` then books the doctor on the date at `t` (answer 201), the availability
route afterwards answers with the slots of `avail` whose time is not `t`, in the same
order, and with `t` added to the booked times: no slot with the time `t` is left and
every other slot that was available still is. -/
theorem availability_after_booking (fuel : Nat) (now : String) (db : Database)
    (doctorId : Nat) (date t : JsVal) (doctor : DoctorRow) (req : BookingRequest)
    (avail : List Slot) (booked : List JsVal)
    (hdoc : IsActiveDoctor db doctorId doctor)
    (hreq : req.doctor_id = .num doctorId ∧ req.appointment_date = date ∧
      req.appointment_time = t)
    (hbook : (attemptBook now db.appointments req).1.code = 201)
    (hbefore : availability fuel db doctorId date = .returned (.success doctor avail booked)) :
    ∃ after : List Slot,
      availability fuel { db with appointments := (attemptBook now db.appointments req).2 }
          doctorId date =
        .returned (.success doctor after (booked ++ [t])) ∧
      after = avail.filter (fun x => decide (JsVal.str x.time ≠ t)) ∧
      (∀ x ∈ after, JsVal.str x.time ≠ t) ∧
      (∀ x ∈ avail, JsVal.str x.time ≠ t → x ∈ after) ∧
      after.Sublist avail := by
  obtain ⟨hd, hdt, ht⟩ := hreq
  obtain ⟨hr, -, heq⟩ := attemptBook_created now db.appointments req hbook
  obtain ⟨f1, -, -, -, f5, f6⟩ := insertedRow_fields now db.appointments req hr
  have hdate : truthy date = true := hdt ▸ hr.2.2.2.2.1
  obtain ⟨-, hbk, hgen⟩ :=
    availability_success fuel db doctorId date doctor doctor hdate hdoc avail booked hbefore
  obtain ⟨window, hw, hav⟩ := generateTimeSlots_returned fuel doctor.hours booked avail hgen
  have hrow : bookedOn doctorId date (insertedRow now db.appointments req) = true := by
    rw [bookedOn_iff doctorId date _ hdate]
    exact ⟨f1.trans hd, f5.trans hdt, Or.inl rfl⟩
  have hbooked : ((db.appointments ++ [insertedRow now db.appointments req]).filter
      (bookedOn doctorId date)).map Appointment.appointment_time = booked ++ [t] := by
    rw [List.filter_append, List.map_append, ← hbk]
    simp [List.filter_cons, hrow, f6, ht]
  have hafter := availability_returned fuel
    { db with appointments := db.appointments ++ [insertedRow now db.appointments req] }
    doctorId date doctor hdate hdoc (window.filter (isOpen (booked ++ [t])))
    (by rw [hbooked]; exact generateTimeSlots_of_window fuel doctor.hours _ window hw)
  rw [hbooked] at hafter
  have hfil : window.filter (isOpen (booked ++ [t])) =
      avail.filter (fun x => decide (JsVal.str x.time ≠ t)) := by
    rw [hav, List.filter_filter]
    refine List.filter_congr fun x _ => ?_
    rw [isOpen_append, Bool.and_comm]
  refine ⟨avail.filter (fun x => decide (JsVal.str x.time ≠ t)), ?_, rfl, ?_, ?_,
    List.filter_sublist _⟩
  · rw [heq, ← hfil]
    exact hafter
  · intro x hx
    exact of_decide_eq_true (List.mem_filter.1 hx).2
  · intro x hx hne
    exact List.mem_filter.2 ⟨hx, decide_eq_true hne⟩

theorem availability_after_booking_witness :
    ∃ after : List Slot,
      availability 3
          { sampleDatabase with
            appointments := (attemptBook "t1" sampleDatabase.appointments sampleRequest).2 }
          1 (.str "2024-06-01") =
        .returned (.success sampleDoctor after ([] ++ [.str "09:00"])) ∧
      after =
        [({ time := "09:00", display := "9:00 AM" } : Slot),
          { time := "09:30", display := "9:30 AM" }].filter
          (fun x => decide (JsVal.str x.time ≠ .str "09:00")) ∧
      (∀ x ∈ after, JsVal.str x.time ≠ .str "09:00") ∧
      (∀ x ∈ [({ time := "09:00", display := "9:00 AM" } : Slot),
          { time := "09:30", display := "9:30 AM" }],
        JsVal.str x.time ≠ .str "09:00" → x ∈ after) ∧
      after.Sublist
        [({ time := "09:00", display := "9:00 AM" } : Slot),
          { time := "09:30", display := "9:30 AM" }] :=
  availability_after_booking 3 "t1" sampleDatabase 1 (.str "2024-06-01") (.str "09:00")
    sampleDoctor sampleRequest _ []
    ⟨List.mem_singleton.2 rfl, rfl, rfl, fun d hd _ => List.mem_singleton.1 hd⟩
    ⟨rfl, rfl, rfl⟩ (by decide) (by decide)

/-- C28 (releasing a slot): let `a` be a stored appointment such that every confirmed or
pending appointment of the doctor on the date at the time `t` is `a`. After `setStatus`
sets the status of `a` to cancelled, completed or no_show (answer 200), `attemptBook`
for the doctor, the date and `t` with a complete request answers 201; and when the doctor
is active, every slot with the time `t` that `generateTimeSlots` generates from the
doctor's window (with no booked time) is among the available slots the availability
route then answers for the doctor and the date. -/
theorem slot_released (now1 now2 : String) (db : Database) (doctorId : Nat) (date t : JsVal)
    (a : Appointment) (s : String) (req : BookingRequest)
    (ha : a ∈ db.appointments)
    (honly : ∀ b ∈ db.appointments, IsBookedOn doctorId date b → b.appointment_time = t →
      b = a)
    (hs : s = "cancelled" ∨ s = "completed" ∨ s = "no_show")
    (hr : HasRequiredFields req)
    (hreq : req.doctor_id = .num doctorId ∧ req.appointment_date = date ∧
      req.appointment_time = t) :
    (setStatus now1 db.appointments a.id (.str s)).1.code = 200 ∧
    (attemptBook now2 (setStatus now1 db.appointments a.id (.str s)).2 req).1.code = 201 ∧
    ∀ (fuel : Nat) (doctor : DoctorRow) (window : List Slot),
      IsActiveDoctor db doctorId doctor →
      generateTimeSlots fuel doctor.hours [] = .returned window →
      ∃ avail booked,
        availability fuel
            { db with appointments := (setStatus now1 db.appointments a.id (.str s)).2 }
            doctorId date =
          .returned (.success doctor avail booked) ∧
        ∀ x ∈ window, JsVal.str x.time = t → x ∈ avail := by
  obtain ⟨hd, hdt, ht⟩ := hreq
  have hv : s ∈ validStatuses := by
    rcases hs with rfl | rfl | rfl <;> decide
  have heq := setStatus_known_eq now1 db.appointments a.id s hv ⟨a, ha, rfl⟩
  have hfree := released_free now1 db.appointments a s doctorId date t honly hs
  have hdate : truthy date = true := hdt ▸ hr.2.2.2.2.1
  rw [heq]
  refine ⟨rfl, ?_, ?_⟩
  · have hc : ¬ HasActiveAppointment (db.appointments.map (withStatus now1 a.id s))
        req.doctor_id req.appointment_date req.appointment_time := by
      rintro ⟨b, hb, h1, h2, h3, h4⟩
      exact hfree b hb ⟨⟨h1.trans hd, h2.trans hdt, h4⟩, h3.trans ht⟩
    rw [attemptBook_free now2 _ req hr hc]
  · intro fuel doctor window hdoc hw
    refine ⟨_, _, availability_returned fuel
      { db with appointments := db.appointments.map (withStatus now1 a.id s) }
      doctorId date doctor hdate hdoc _
      (generateTimeSlots_of_window fuel doctor.hours _ window hw), ?_⟩
    intro x hx hxt
    refine List.mem_filter.2 ⟨hx, ?_⟩
    simp only [isOpen, Bool.not_eq_true', ← Bool.not_eq_true, mem_contains_iff, hxt]
    intro hmem
    obtain ⟨b, hb, hbt⟩ := List.mem_map.1 hmem
    obtain ⟨hb1, hb2⟩ := List.mem_filter.1 hb
    exact hfree b hb1 ⟨(bookedOn_iff doctorId date b hdate).1 hb2, hbt⟩

theorem slot_released_witness :
    (setStatus "t2" [insertedRow "t1" [] sampleRequest] 1 (.str "cancelled")).1.code = 200 ∧
    (attemptBook "t3" (setStatus "t2" [insertedRow "t1" [] sampleRequest] 1
      (.str "cancelled")).2 sampleRequest).1.code = 201 ∧
    ∀ (fuel : Nat) (doctor : DoctorRow) (window : List Slot),
      IsActiveDoctor { sampleDatabase with appointments := [insertedRow "t1" [] sampleRequest] }
        1 doctor →
      generateTimeSlots fuel doctor.hours [] = .returned window →
      ∃ avail booked,
        availability fuel
            { sampleDatabase with
              appointments :=
                (setStatus "t2" [insertedRow "t1" [] sampleRequest] 1 (.str "cancelled")).2 }
            1 (.str "2024-06-01") =
          .returned (.success doctor avail booked) ∧
        ∀ x ∈ window, JsVal.str x.time = .str "09:00" → x ∈ avail :=
  slot_released "t2" "t3"
    { sampleDatabase with appointments := [insertedRow "t1" [] sampleRequest] } 1
    (.str "2024-06-01") (.str "09:00") (insertedRow "t1" [] sampleRequest) "cancelled"
    sampleRequest (List.mem_singleton.2 rfl) (fun _ hb _ _ => List.mem_singleton.1 hb)
    (Or.inl rfl) sampleRequest_required ⟨rfl, rfl, rfl⟩

/-- C29 (canonical slot times): for a doctor record whose start and end are accepted by
`isValidTime` (a one-digit hour as in "9:00" included) and whose duration `d` is a positive
integer, `generateTimeSlots` returns (given fuel above `(end - start) / d`) a list in
which every slot time has five characters, is the zero-padded `HH:MM` text of an hour 0
to 23 and a minute 0 to 59, is accepted by `isValidTime`, and lies in the window:
`start ≤ timeToMinutes time` and `timeToMinutes time + d ≤ end`. -/
theorem generateTimeSlots_canonical (start stop : JsVal) (d : Nat) (booked : List JsVal)
    (hs : isValidTime start = true) (he : isValidTime stop = true) (hd : 0 < d) :
    ∃ (a b : Nat) (slots : List Slot),
      timeToMinutes (toStr start) = a ∧ timeToMinutes (toStr stop) = b ∧
      (∀ fuel, (b - a) / d < fuel →
        generateTimeSlots fuel ⟨start, stop, .num d⟩ booked = .returned slots) ∧
      ∀ x ∈ slots, x.time.length = 5 ∧ IsHHMM (.str x.time) ∧
        isValidTime (.str x.time) = true ∧
        (a : Int) ≤ timeToMinutes x.time ∧ timeToMinutes x.time + d ≤ b := by
  obtain ⟨s, a, rfl, hsa⟩ := (isValidTime_iff start).1 hs
  obtain ⟨e, b, rfl, heb⟩ := (isValidTime_iff stop).1 he
  refine ⟨a, b, _, timeToMinutes_of_isTimeOfDay s a hsa, timeToMinutes_of_isTimeOfDay e b heb,
    fun fuel hf => generateTimeSlots_eq s e a b d booked fuel hsa heb hd hf, ?_⟩
  intro x hx
  obtain ⟨t, rfl, hat, htb⟩ := mem_expected booked a b d hd x hx
  have hb := isTimeOfDay_lt e b heb
  have ht : t < 1440 := by omega
  have hq : t / 60 < 24 := by omega
  have hr : t % 60 < 60 := Nat.mod_lt _ (by decide)
  simp only [slotAt]
  refine ⟨?_, ⟨t / 60, t % 60, hq, hr, by rw [minutesToTime_of_lt t ht]⟩,
    (isValidTime_str_iff _).2 ⟨t, isTimeOfDay_minutesToTime t ht⟩, ?_, ?_⟩
  · rw [minutesToTime_of_lt t ht]; rfl
  · rw [timeToMinutes_minutesToTime t ht]; exact_mod_cast hat
  · rw [timeToMinutes_minutesToTime t ht]; exact_mod_cast htb

theorem generateTimeSlots_canonical_witness :
    ∃ (a b : Nat) (slots : List Slot),
      timeToMinutes (toStr (.str "9:00")) = a ∧ timeToMinutes (toStr (.str "10:00")) = b ∧
      (∀ fuel, (b - a) / 30 < fuel →
        generateTimeSlots fuel ⟨.str "9:00", .str "10:00", .num (30 : Nat)⟩ [] =
          .returned slots) ∧
      ∀ x ∈ slots, x.time.length = 5 ∧ IsHHMM (.str x.time) ∧
        isValidTime (.str x.time) = true ∧
        (a : Int) ≤ timeToMinutes x.time ∧ timeToMinutes x.time + (30 : Nat) ≤ b :=
  generateTimeSlots_canonical (.str "9:00") (.str "10:00") 30 [] (by decide) (by decide)
    (by decide)

/-- C30 (termination): for a doctor record whose start and end are accepted by
`isValidTime` and whose duration `d` is an integer at least 1, and for every booked list,
the loop of `generateTimeSlots` makes at most `(end - start) / d` iterations, a number
that is at most 1439: with fuel for one more evaluation of the loop condition the
function returns a list, of at most that many slots. The bound is reached: when the start
is before the end, less fuel does not suffice. -/
theorem generateTimeSlots_terminates (start stop : JsVal) (d : Nat) (booked : List JsVal)
    (hs : isValidTime start = true) (he : isValidTime stop = true) (hd : 1 ≤ d) :
    ∃ a b : Nat,
      timeToMinutes (toStr start) = a ∧ timeToMinutes (toStr stop) = b ∧
      (b - a) / d ≤ 1439 ∧
      (∀ fuel, (b - a) / d < fuel →
        ∃ slots, generateTimeSlots fuel ⟨start, stop, .num d⟩ booked = .returned slots ∧
          slots.length ≤ (b - a) / d) ∧
      (a < b → ∀ fuel, fuel ≤ (b - a) / d →
        generateTimeSlots fuel ⟨start, stop, .num d⟩ booked = .outOfFuel) := by
  obtain ⟨s, a, rfl, hsa⟩ := (isValidTime_iff start).1 hs
  obtain ⟨e, b, rfl, heb⟩ := (isValidTime_iff stop).1 he
  have hb := isTimeOfDay_lt e b heb
  refine ⟨a, b, timeToMinutes_of_isTimeOfDay s a hsa, timeToMinutes_of_isTimeOfDay e b heb,
    ?_, ?_, ?_⟩
  · calc (b - a) / d ≤ b - a := Nat.div_le_self _ _
      _ ≤ 1439 := by omega
  · intro fuel hf
    refine ⟨_, generateTimeSlots_eq s e a b d booked fuel hsa heb hd hf, ?_⟩
    refine (List.length_filter_le _ _).trans ?_
    simp [slotTimes]
  · intro hab fuel hf
    exact generateTimeSlots_outOfFuel s e a b d booked fuel hsa heb hab hd hf

theorem generateTimeSlots_terminates_witness :
    ∃ a b : Nat,
      timeToMinutes (toStr (.str "09:00")) = a ∧ timeToMinutes (toStr (.str "10:00")) = b ∧
      (b - a) / 30 ≤ 1439 ∧
      (∀ fuel, (b - a) / 30 < fuel →
        ∃ slots,
          generateTimeSlots fuel ⟨.str "09:00", .str "10:00", .num (30 : Nat)⟩ [.str "09:00"] =
            .returned slots ∧
          slots.length ≤ (b - a) / 30) ∧
      (a < b → ∀ fuel, fuel ≤ (b - a) / 30 →
        generateTimeSlots fuel ⟨.str "09:00", .str "10:00", .num (30 : Nat)⟩ [.str "09:00"] =
          .outOfFuel) :=
  generateTimeSlots_terminates (.str "09:00") (.str "10:00") 30 [.str "09:00"] (by decide)
    (by decide) (by decide)

end Medireserva
